import Mathlib

/-!
# PLCC plug footprint generator: geometry engine

Shallow embedding of `src/footprints/plcc-gen.c` (the data-driven generator) and
of the parts of `src/footprints/apw.c` (the older generator) it is compared with.

Modelling conventions.

* C `double` values are modelled by exact rationals (`ℚ`); a decimal literal of
  the source denotes its exact decimal value.  Where a property depends on the
  stored values themselves (equality of two positions, an edge lying exactly on
  a line), a second embedding `calculate_pin_positions_f64` of the pad layout
  rounds every literal and every operation to binary64.
* C `int` values are modelled by `Int`; `/` on `int` is truncating division
  (`Int.tdiv`).  Signed overflow is undefined behaviour in C;
  `calculate_pin_positions_checked` returns `none` where it would occur.
* The fixed-capacity array `pads[128]` together with `pad_count` is modelled by
  the list of the pads written so far, in order;
  `calculate_pin_positions_checked` returns `none` where a pad would be written
  past the end of the array.
* `generate_geometry` obtains the geometry with `calloc`, so every field a
  function does not write is zero.
-/

namespace PLCC

/-- The C struct `point_t`. -/
structure point_t where
  x : ℚ
  y : ℚ
deriving DecidableEq, Repr

/-- The C enum `pad_type_t`. -/
inductive pad_type_t where
  | PAD_SMD
  | PAD_THROUGHHOLE
deriving DecidableEq, Repr

/-- The C struct `drill_info_t`. -/
structure drill_info_t where
  diameter : ℚ
  offset : point_t
deriving DecidableEq, Repr

/-- The C struct `pad_t`. -/
structure pad_t where
  number : Int
  position : point_t
  size : point_t
  type : pad_type_t
  drill : drill_info_t
  layers : String
deriving DecidableEq, Repr

/-- The C struct `dimensions_t`: body dimensions from the datasheet. -/
structure dimensions_t where
  a : ℚ
  b : ℚ
  c : ℚ
  d : ℚ
deriving DecidableEq, Repr

/-- The C struct `component_spec_t`. -/
structure component_spec_t where
  name : String
  pins : Int
  pins_x : Int
  pins_y : Int
  pitch : ℚ
  body : dimensions_t
  pad_width : ℚ
deriving DecidableEq, Repr

/-- The C struct `footprint_options_t`; the two flags are C `int`s tested
against zero. -/
structure footprint_options_t where
  double_sided : Int
  via_outside : Int
  timestamp : String
deriving DecidableEq, Repr

/-- Catalog row 0 of `component_specs`. -/
def APW9322 : component_spec_t :=
  ⟨"APW9322", 20, 5, 5, 1.27, ⟨15.00, 8.70, 15.00, 8.70⟩, 0.9⟩

/-- Catalog row 1 of `component_specs`. -/
def APW9323 : component_spec_t :=
  ⟨"APW9323", 28, 7, 7, 1.27, ⟨17.40, 11.15, 17.40, 11.15⟩, 0.9⟩

/-- Catalog row 2 of `component_specs`. -/
def APW9324 : component_spec_t :=
  ⟨"APW9324", 32, 7, 9, 1.27, ⟨17.40, 11.15, 19.90, 13.60⟩, 0.9⟩

/-- Catalog row 3 of `component_specs`. -/
def APW9325 : component_spec_t :=
  ⟨"APW9325", 44, 11, 11, 1.27, ⟨22.50, 16.40, 22.50, 16.40⟩, 0.9⟩

/-- Catalog row 4 of `component_specs`. -/
def APW9326 : component_spec_t :=
  ⟨"APW9326", 52, 13, 13, 1.27, ⟨25.10, 18.90, 25.10, 18.90⟩, 0.9⟩

/-- Catalog row 5 of `component_specs`. -/
def APW9327 : component_spec_t :=
  ⟨"APW9327", 68, 17, 17, 1.27, ⟨30.10, 23.90, 30.10, 23.90⟩, 0.9⟩

/-- Catalog row 6 of `component_specs`. -/
def APW9328 : component_spec_t :=
  ⟨"APW9328", 84, 21, 21, 1.27, ⟨36.60, 27.50, 36.60, 27.50⟩, 0.9⟩

/-- The static table `component_specs[]`. -/
def component_specs : List component_spec_t :=
  [APW9322, APW9323, APW9324, APW9325, APW9326, APW9327, APW9328]

/-- The local `pad_length = (c - d) / 2` of `calculate_pin_positions`. -/
def pad_length (spec : component_spec_t) : ℚ :=
  (spec.body.c - spec.body.d) / 2

/-- The local `pins_width = spec->pins_x * pitch`. -/
def pins_width (spec : component_spec_t) : ℚ :=
  (spec.pins_x : ℚ) * spec.pitch

/-- The local `pins_height = spec->pins_y * pitch`. -/
def pins_height (spec : component_spec_t) : ℚ :=
  (spec.pins_y : ℚ) * spec.pitch

/-- The pin range table entry `cp[0]`. -/
def cp0 (_spec : component_spec_t) : Int := 1

/-- The pin range table entry `cp[1] = cp[0] + (spec->pins_x / 2)`. -/
def cp1 (spec : component_spec_t) : Int := cp0 spec + Int.tdiv spec.pins_x 2

/-- The pin range table entry `cp[2] = cp[1] + 1`. -/
def cp2 (spec : component_spec_t) : Int := cp1 spec + 1

/-- The pin range table entry `cp[3] = cp[2] + (spec->pins_y - 1)`. -/
def cp3 (spec : component_spec_t) : Int := cp2 spec + (spec.pins_y - 1)

/-- The pin range table entry `cp[4] = cp[3] + 1`. -/
def cp4 (spec : component_spec_t) : Int := cp3 spec + 1

/-- The pin range table entry `cp[5] = cp[4] + (spec->pins_x - 1)`. -/
def cp5 (spec : component_spec_t) : Int := cp4 spec + (spec.pins_x - 1)

/-- The pin range table entry `cp[6] = cp[5] + 1`. -/
def cp6 (spec : component_spec_t) : Int := cp5 spec + 1

/-- The pin range table entry `cp[7] = cp[6] + (spec->pins_x - 1)`; the source
uses `pins_x` here. -/
def cp7 (spec : component_spec_t) : Int := cp6 spec + (spec.pins_x - 1)

/-- The pin range table entry `cp[8] = cp[7] + 1`. -/
def cp8 (spec : component_spec_t) : Int := cp7 spec + 1

/-- The pin range table entry `cp[9] = spec->pins`. -/
def cp9 (spec : component_spec_t) : Int := spec.pins

/-- Number of iterations of `for (int i = lo; i <= hi; i++)`. -/
def loop_count (lo hi : Int) : Nat := (hi + 1 - lo).toNat

/-- Body of each of the five pad loops of `calculate_pin_positions` (the five
bodies are textually identical): the pad written for loop variables
`i, px, py, sx, sy`.  In the surface-mount branch `drill` keeps its `calloc`
value. -/
def emit_pad (opts : footprint_options_t) (i : Int) (px py sx sy : ℚ) : pad_t :=
  let type : pad_type_t :=
    if opts.double_sided ≠ 0 then pad_type_t.PAD_THROUGHHOLE else pad_type_t.PAD_SMD
  if type = pad_type_t.PAD_THROUGHHOLE then
    let ox : ℚ := if sx > sy then (if px < 0 then sx / 4 else -sx / 4) else 0
    let oy : ℚ := if sx ≤ sy then (if py < 0 then sy / 4 else -sy / 4) else 0
    let ox : ℚ := if opts.via_outside = 0 then ox * -1 else ox
    let oy : ℚ := if opts.via_outside = 0 then oy * -1 else oy
    { number := i
      position := ⟨px - ox, py - oy⟩
      size := ⟨sx, sy⟩
      type := type
      drill := ⟨0.3, ⟨ox, oy⟩⟩
      layers := "\"*.Cu\" \"*.Mask\"" }
  else
    { number := i
      position := ⟨px, py⟩
      size := ⟨sx, sy⟩
      type := type
      drill := ⟨0, ⟨0, 0⟩⟩
      layers := "\"F.Cu\" \"F.Paste\" \"F.Mask\"" }

/-- One pad loop: `n` iterations starting at pin `i` and nominal position
`(px, py)`; after each pad the position advances by `(dx, dy)` (the source
statements `px += pitch`, `py += pitch`, `px -= pitch`, `py -= pitch`). -/
def pad_loop (opts : footprint_options_t) (sx sy dx dy : ℚ) :
    Nat → Int → ℚ → ℚ → List pad_t
  | 0, _, _, _ => []
  | n + 1, i, px, py =>
    emit_pad opts i px py sx sy :: pad_loop opts sx sy dx dy n (i + 1) (px + dx) (py + dy)

/-- The loop marked `Top 1` of `calculate_pin_positions`. -/
def pads_top1 (spec : component_spec_t) (opts : footprint_options_t) : List pad_t :=
  pad_loop opts spec.pad_width (pad_length spec) spec.pitch 0
    (loop_count (cp0 spec) (cp1 spec)) (cp0 spec)
    0 (-(spec.body.c - pad_length spec) / 2)

/-- The loop marked `Right` of `calculate_pin_positions`. -/
def pads_right (spec : component_spec_t) (opts : footprint_options_t) : List pad_t :=
  pad_loop opts (pad_length spec) spec.pad_width 0 spec.pitch
    (loop_count (cp2 spec) (cp3 spec)) (cp2 spec)
    ((spec.body.a - pad_length spec) / 2) (-(pins_height spec - spec.pitch) / 2)

/-- The loop marked `Bottom` of `calculate_pin_positions`. -/
def pads_bottom (spec : component_spec_t) (opts : footprint_options_t) : List pad_t :=
  pad_loop opts spec.pad_width (pad_length spec) (-spec.pitch) 0
    (loop_count (cp4 spec) (cp5 spec)) (cp4 spec)
    ((pins_width spec - spec.pitch) / 2) ((spec.body.c - pad_length spec) / 2)

/-- The loop marked `Left` of `calculate_pin_positions`. -/
def pads_left (spec : component_spec_t) (opts : footprint_options_t) : List pad_t :=
  pad_loop opts (pad_length spec) spec.pad_width 0 (-spec.pitch)
    (loop_count (cp6 spec) (cp7 spec)) (cp6 spec)
    (-(spec.body.a - pad_length spec) / 2) ((pins_height spec - spec.pitch) / 2)

/-- The loop marked `Top 2` of `calculate_pin_positions`. -/
def pads_top2 (spec : component_spec_t) (opts : footprint_options_t) : List pad_t :=
  pad_loop opts spec.pad_width (pad_length spec) spec.pitch 0
    (loop_count (cp8 spec) (cp9 spec)) (cp8 spec)
    (-(pins_width spec - spec.pitch) / 2) (-(spec.body.c - pad_length spec) / 2)

/-- The function `calculate_pin_positions`: the pads written to `geom->pads`, in
the order written (`geom->pad_count` is the length). -/
def calculate_pin_positions (spec : component_spec_t) (opts : footprint_options_t) :
    List pad_t :=
  pads_top1 spec opts ++ pads_right spec opts ++ pads_bottom spec opts ++
    pads_left spec opts ++ pads_top2 spec opts


/-- The loop variables `i, px, py, sx, sy` in force when one pad is written. -/
structure pin_slot where
  i : Int
  px : ℚ
  py : ℚ
  sx : ℚ
  sy : ℚ
deriving DecidableEq, Repr

/-- The loop variables of the successive iterations of one pad loop. -/
def slot_loop (sx sy dx dy : ℚ) : Nat → Int → ℚ → ℚ → List pin_slot
  | 0, _, _, _ => []
  | n + 1, i, px, py => ⟨i, px, py, sx, sy⟩ :: slot_loop sx sy dx dy n (i + 1) (px + dx) (py + dy)

/-- The loop variables of all iterations of the five loops of
`calculate_pin_positions`, in order: pin number, nominal position and size. -/
def pin_slots (spec : component_spec_t) : List pin_slot :=
  slot_loop spec.pad_width (pad_length spec) spec.pitch 0
      (loop_count (cp0 spec) (cp1 spec)) (cp0 spec)
      0 (-(spec.body.c - pad_length spec) / 2) ++
    slot_loop (pad_length spec) spec.pad_width 0 spec.pitch
      (loop_count (cp2 spec) (cp3 spec)) (cp2 spec)
      ((spec.body.a - pad_length spec) / 2) (-(pins_height spec - spec.pitch) / 2) ++
    slot_loop spec.pad_width (pad_length spec) (-spec.pitch) 0
      (loop_count (cp4 spec) (cp5 spec)) (cp4 spec)
      ((pins_width spec - spec.pitch) / 2) ((spec.body.c - pad_length spec) / 2) ++
    slot_loop (pad_length spec) spec.pad_width 0 (-spec.pitch)
      (loop_count (cp6 spec) (cp7 spec)) (cp6 spec)
      (-(spec.body.a - pad_length spec) / 2) ((pins_height spec - spec.pitch) / 2) ++
    slot_loop spec.pad_width (pad_length spec) spec.pitch 0
      (loop_count (cp8 spec) (cp9 spec)) (cp8 spec)
      (-(pins_width spec - spec.pitch) / 2) (-(spec.body.c - pad_length spec) / 2)

/-- The pad written for the loop variables `s`. -/
def place (opts : footprint_options_t) (s : pin_slot) : pad_t :=
  emit_pad opts s.i s.px s.py s.sx s.sy

/-- The function `find_component_by_pins`: linear scan of `component_specs`
for the first row whose `pins` field equals the argument; `none` is `NULL`. -/
def find_component_by_pins (pins : Int) : Option component_spec_t :=
  component_specs.find? (fun s => decide (s.pins = pins))

/-- The C struct `line_t`; the field `end_` is the C field `end`. -/
structure line_t where
  start : point_t
  end_ : point_t
  width : ℚ
  layer : String
deriving DecidableEq, Repr

/-- The C struct `footprint_geometry_t`.  Each fixed-capacity array with its
count field is the list of the entries written so far; `text_positions` holds
the three anchors reference, value, user. -/
structure footprint_geometry_t where
  pads : List pad_t
  silkscreen_lines : List line_t
  fab_lines : List line_t
  courtyard_lines : List line_t
  text_positions : List point_t
deriving DecidableEq, Repr

/-- The geometry as `calloc` returns it: all counts zero, all anchors zero. -/
def calloc_geometry : footprint_geometry_t :=
  ⟨[], [], [], [], [⟨0, 0⟩, ⟨0, 0⟩, ⟨0, 0⟩]⟩

/-- The fifteen segments one call of `generate_silkscreen_lines` writes, in the
order written: six outline segments of width 0.12, then the segments of width
0.1 built from the eight coordinates that are literals for `pins == 84` and the
literals scaled by `body.a / 36.60` and `body.c / 36.60` otherwise.  (The values
the source first computes from the pad layout are overwritten on both
branches.) -/
def silkscreen_segments (spec : component_spec_t) (layer : String) : List line_t :=
  let ox : ℚ := spec.body.a / 2
  let oy : ℚ := spec.body.c / 2
  let x1 : ℚ := -ox - 0.2
  let y1 : ℚ := -oy - 0.2
  let x2 : ℚ := ox + 0.2
  let y2 : ℚ := -oy - 0.2
  let x3 : ℚ := ox + 0.2
  let y3 : ℚ := oy + 0.2
  let x4 : ℚ := -ox - 0.2
  let y4 : ℚ := oy + 0.2
  let scale_x : ℚ := spec.body.a / 36.60
  let scale_y : ℚ := spec.body.c / 36.60
  let right_pad_inner : ℚ := if spec.pins = 84 then 13.675 else 13.675 * scale_x
  let right_pad_outer : ℚ := if spec.pins = 84 then 14.175 else 14.175 * scale_x
  let right_edge_outer : ℚ := if spec.pins = 84 then 15.325 else 15.325 * scale_x
  let top_pad_edge : ℚ := if spec.pins = 84 then -14.8 else -14.8 * scale_y
  let top_edge_inner : ℚ := if spec.pins = 84 then -13.65 else -13.65 * scale_y
  let top_edge_gap : ℚ := if spec.pins = 84 then -13.15 else -13.15 * scale_y
  let bottom_pad_edge : ℚ := if spec.pins = 84 then 15.85 else 15.85 * scale_y
  let bottom_edge_gap : ℚ := if spec.pins = 84 then 14.2 else 14.2 * scale_y
  [ ⟨⟨x2, y2 + 1⟩, ⟨x3, y3⟩, 0.12, layer⟩,
    ⟨⟨x4, y4⟩, ⟨x1, y1⟩, 0.12, layer⟩,
    ⟨⟨x3, y3⟩, ⟨x4, y4⟩, 0.12, layer⟩,
    ⟨⟨x2 - 1, y2⟩, ⟨x2, y2 + 1⟩, 0.12, layer⟩,
    ⟨⟨x1, y1⟩, ⟨-1.0, y1⟩, 0.12, layer⟩,
    ⟨⟨1.0, y1⟩, ⟨x2 - 1, y2⟩, 0.12, layer⟩,
    ⟨⟨right_pad_inner, top_pad_edge⟩, ⟨right_pad_outer, top_pad_edge⟩, 0.1, layer⟩,
    ⟨⟨right_pad_outer, top_pad_edge⟩, ⟨right_edge_outer, top_edge_inner⟩, 0.1, layer⟩,
    ⟨⟨-right_pad_inner, top_pad_edge⟩, ⟨-right_edge_outer, top_pad_edge⟩, 0.1, layer⟩,
    ⟨⟨right_edge_outer, top_edge_inner⟩, ⟨right_edge_outer, top_edge_gap⟩, 0.1, layer⟩,
    ⟨⟨right_edge_outer, bottom_pad_edge⟩, ⟨right_edge_outer, bottom_edge_gap⟩, 0.1, layer⟩,
    ⟨⟨-right_pad_inner, bottom_pad_edge⟩, ⟨-right_edge_outer, bottom_pad_edge⟩, 0.1, layer⟩,
    ⟨⟨-right_edge_outer, bottom_pad_edge⟩, ⟨-right_edge_outer, bottom_edge_gap⟩, 0.1, layer⟩,
    ⟨⟨-right_edge_outer, top_pad_edge⟩, ⟨-right_edge_outer, top_edge_gap⟩, 0.1, layer⟩,
    ⟨⟨right_pad_inner, bottom_pad_edge⟩, ⟨right_edge_outer, bottom_pad_edge⟩, 0.1, layer⟩ ]

/-- The function `generate_silkscreen_lines`: every statement
`lines[(*count)++] = ...` appends one segment to `geom->silkscreen_lines`. -/
def generate_silkscreen_lines (geom : footprint_geometry_t) (spec : component_spec_t)
    (layer : String) : footprint_geometry_t :=
  { geom with silkscreen_lines := geom.silkscreen_lines ++ silkscreen_segments spec layer }

/-- The function `generate_courtyard_lines`: sets `courtyard_count = 4` and
writes `lines[0..3]`. -/
def generate_courtyard_lines (geom : footprint_geometry_t) (spec : component_spec_t) :
    footprint_geometry_t :=
  let ox : ℚ := spec.body.a / 2
  let oy : ℚ := spec.body.c / 2
  { geom with
    courtyard_lines :=
      [ ⟨⟨-ox, -oy⟩, ⟨ox, -oy⟩, 0.05, "F.CrtYd"⟩,
        ⟨⟨-ox, oy⟩, ⟨-ox, -oy⟩, 0.05, "F.CrtYd"⟩,
        ⟨⟨ox, oy⟩, ⟨-ox, oy⟩, 0.05, "F.CrtYd"⟩,
        ⟨⟨ox, -oy⟩, ⟨ox, oy⟩, 0.05, "F.CrtYd"⟩ ] }

/-- The function `generate_fabrication_lines`: appends sixteen literal segments
to `geom->fab_lines`; `spec` is not read. -/
def generate_fabrication_lines (geom : footprint_geometry_t) (_spec : component_spec_t) :
    footprint_geometry_t :=
  { geom with
    fab_lines := geom.fab_lines ++
      [ ⟨⟨-18, -17.475⟩, ⟨17, -17.475⟩, 0.1, "F.Fab"⟩,
        ⟨⟨18, 18.525⟩, ⟨-18, 18.525⟩, 0.1, "F.Fab"⟩,
        ⟨⟨18, -16.475⟩, ⟨18, 18.525⟩, 0.1, "F.Fab"⟩,
        ⟨⟨-18, 18.525⟩, ⟨-18, -17.475⟩, 0.1, "F.Fab"⟩,
        ⟨⟨17, -17.475⟩, ⟨18, -16.475⟩, 0.1, "F.Fab"⟩,
        ⟨⟨-16.73, -16.205⟩, ⟨16.73, -16.205⟩, 0.1, "F.Fab"⟩,
        ⟨⟨-16.73, 17.255⟩, ⟨-16.73, -16.205⟩, 0.1, "F.Fab"⟩,
        ⟨⟨15.175, 15.7⟩, ⟨-15.175, 15.7⟩, 0.1, "F.Fab"⟩,
        ⟨⟨-15.175, 15.7⟩, ⟨-15.175, -14.65⟩, 0.1, "F.Fab"⟩,
        ⟨⟨-15.175, -14.65⟩, ⟨14.175, -14.65⟩, 0.1, "F.Fab"⟩,
        ⟨⟨15.175, -13.65⟩, ⟨15.175, 15.7⟩, 0.1, "F.Fab"⟩,
        ⟨⟨16.73, 17.255⟩, ⟨-16.73, 17.255⟩, 0.1, "F.Fab"⟩,
        ⟨⟨0, -16.475⟩, ⟨-0.5, -17.475⟩, 0.1, "F.Fab"⟩,
        ⟨⟨0.5, -17.475⟩, ⟨0, -16.475⟩, 0.1, "F.Fab"⟩,
        ⟨⟨16.73, -16.205⟩, ⟨16.73, 17.255⟩, 0.1, "F.Fab"⟩,
        ⟨⟨14.175, -14.65⟩, ⟨15.175, -13.65⟩, 0.1, "F.Fab"⟩ ] }

/-- The function `calculate_text_positions`: writes the three anchors
reference, value, user. -/
def calculate_text_positions (geom : footprint_geometry_t) (spec : component_spec_t) :
    footprint_geometry_t :=
  let offset : ℚ := spec.body.a / 2 + 1.0
  { geom with text_positions := [⟨0, -offset⟩, ⟨0, offset + 0.5⟩, ⟨0, 0.525⟩] }

/-- The function `generate_geometry` on a successful allocation: the six calls in
source order on the zeroed geometry.  `calculate_pin_positions` resets
`pad_count` to zero before writing, so it replaces the pad list. -/
def generate_geometry (spec : component_spec_t) (opts : footprint_options_t) :
    footprint_geometry_t :=
  let geom := { calloc_geometry with pads := calculate_pin_positions spec opts }
  let geom := generate_silkscreen_lines geom spec "F.SilkS"
  let geom := generate_silkscreen_lines geom spec "B.SilkS"
  let geom := generate_courtyard_lines geom spec
  let geom := generate_fabrication_lines geom spec
  calculate_text_positions geom spec

/-! ### The older generator `src/footprints/apw.c`

Its functions print the footprint directly.  Each printed `fp_line` record is
modelled by the `line_t` with the printed start, end, width and layer. -/

/-- The C struct `component_config_t` of `apw.c`. -/
structure component_config_t where
  name : String
  pins_x : Int
  pins_y : Int
  pitch : ℚ
  a : ℚ
  b : ℚ
  c : ℚ
  d : ℚ
  pad_width : ℚ
deriving DecidableEq, Repr

/-- The table `configs[]` of `apw.c` (the `ADAPTPLUS` rows; `WINSLOW` is not
defined). -/
def configs : List component_config_t :=
  [ ⟨"APW9322", 5, 5, 1.27, 15.00, 8.70, 15.00, 8.70, 0.9⟩,
    ⟨"APW9323", 7, 7, 1.27, 17.40, 11.15, 17.40, 11.15, 0.9⟩,
    ⟨"APW9324", 7, 9, 1.27, 17.40, 11.15, 19.90, 13.60, 0.9⟩,
    ⟨"APW9325", 11, 11, 1.27, 22.50, 16.40, 22.50, 16.40, 0.9⟩,
    ⟨"APW9326", 13, 13, 1.27, 25.10, 18.90, 25.10, 18.90, 0.9⟩,
    ⟨"APW9327", 17, 17, 1.27, 30.10, 23.90, 30.10, 23.90, 0.9⟩,
    ⟨"APW9328", 21, 21, 1.27, 36.60, 27.50, 36.60, 27.50, 0.9⟩ ]

/-- The local table `pin_counts[]` of `get_config_for_pins`. -/
def pin_counts : List Int := [20, 28, 32, 44, 52, 68, 84]

/-- The function `get_config_for_pins` of `apw.c`: the first index `i < 7` with
`pin_counts[i] == pins` selects `configs[i]`; `none` is `NULL`. -/
def get_config_for_pins (pins : Int) : Option component_config_t :=
  ((pin_counts.zip configs).find? (fun pc => decide (pc.1 = pins))).map (fun pc => pc.2)

/-- The function `kicad_mod_silkscreen` of `apw.c`: six outline records of width
0.12 on the fixed square of half side 18.5, then the literal records of width
0.1.  The configuration is read into `ox`, `oy`, `top_height` only, which are
not used. -/
def kicad_mod_silkscreen (_current_config : component_config_t) (silkscreen : String) :
    List line_t :=
  let x1 : ℚ := -18.5
  let y1 : ℚ := -18.5
  let x2 : ℚ := 18.5
  let y2 : ℚ := -18.5
  let x3 : ℚ := 18.5
  let y3 : ℚ := 18.5
  let x4 : ℚ := -18.5
  let y4 : ℚ := 18.5
  [ ⟨⟨x2, y2 + 1⟩, ⟨x3, y3⟩, 0.12, silkscreen⟩,
    ⟨⟨x4, y4⟩, ⟨x1, y1⟩, 0.12, silkscreen⟩,
    ⟨⟨x3, y3⟩, ⟨x4, y4⟩, 0.12, silkscreen⟩,
    ⟨⟨x2 - 1, y2⟩, ⟨x2, y2 + 1⟩, 0.12, silkscreen⟩,
    ⟨⟨x1, y1⟩, ⟨-1.0, y1⟩, 0.12, silkscreen⟩,
    ⟨⟨1.0, y1⟩, ⟨x2 - 1, y2⟩, 0.12, silkscreen⟩,
    ⟨⟨13.675, -14.8⟩, ⟨14.175, -14.8⟩, 0.1, silkscreen⟩,
    ⟨⟨14.175, -14.8⟩, ⟨15.325, -13.65⟩, 0.1, silkscreen⟩,
    ⟨⟨-13.675, -14.8⟩, ⟨-15.325, -14.8⟩, 0.1, silkscreen⟩,
    ⟨⟨15.325, -13.65⟩, ⟨15.325, -13.15⟩, 0.1, silkscreen⟩,
    ⟨⟨15.325, 15.85⟩, ⟨15.325, 14.2⟩, 0.1, silkscreen⟩,
    ⟨⟨-13.675, 15.85⟩, ⟨-15.325, 15.85⟩, 0.1, silkscreen⟩,
    ⟨⟨-15.325, 15.85⟩, ⟨-15.325, 14.2⟩, 0.1, silkscreen⟩,
    ⟨⟨-15.325, -14.8⟩, ⟨-15.325, -13.15⟩, 0.1, silkscreen⟩,
    ⟨⟨13.675, 15.85⟩, ⟨15.325, 15.85⟩, 0.1, silkscreen⟩ ]

/-- The function `kicad_mod_fabrication` of `apw.c`: sixteen literal records on
`F.Fab` of width 0.1. -/
def kicad_mod_fabrication : List line_t :=
  [ ⟨⟨-18, -17.475⟩, ⟨17, -17.475⟩, 0.1, "F.Fab"⟩,
    ⟨⟨18, 18.525⟩, ⟨-18, 18.525⟩, 0.1, "F.Fab"⟩,
    ⟨⟨18, -16.475⟩, ⟨18, 18.525⟩, 0.1, "F.Fab"⟩,
    ⟨⟨-18, 18.525⟩, ⟨-18, -17.475⟩, 0.1, "F.Fab"⟩,
    ⟨⟨17, -17.475⟩, ⟨18, -16.475⟩, 0.1, "F.Fab"⟩,
    ⟨⟨-16.73, -16.205⟩, ⟨16.73, -16.205⟩, 0.1, "F.Fab"⟩,
    ⟨⟨-16.73, 17.255⟩, ⟨-16.73, -16.205⟩, 0.1, "F.Fab"⟩,
    ⟨⟨15.175, 15.7⟩, ⟨-15.175, 15.7⟩, 0.1, "F.Fab"⟩,
    ⟨⟨-15.175, 15.7⟩, ⟨-15.175, -14.65⟩, 0.1, "F.Fab"⟩,
    ⟨⟨-15.175, -14.65⟩, ⟨14.175, -14.65⟩, 0.1, "F.Fab"⟩,
    ⟨⟨15.175, -13.65⟩, ⟨15.175, 15.7⟩, 0.1, "F.Fab"⟩,
    ⟨⟨16.73, 17.255⟩, ⟨-16.73, 17.255⟩, 0.1, "F.Fab"⟩,
    ⟨⟨0, -16.475⟩, ⟨-0.5, -17.475⟩, 0.1, "F.Fab"⟩,
    ⟨⟨0.5, -17.475⟩, ⟨0, -16.475⟩, 0.1, "F.Fab"⟩,
    ⟨⟨16.73, -16.205⟩, ⟨16.73, 17.255⟩, 0.1, "F.Fab"⟩,
    ⟨⟨14.175, -14.65⟩, ⟨15.175, -13.65⟩, 0.1, "F.Fab"⟩ ]

/-- The function `kicad_mod_texts` of `apw.c`: the three printed anchors
reference, value, user for the given `height` (`font_height` is 1). -/
def kicad_mod_texts (height : ℚ) : List point_t :=
  let font_height : ℚ := 1
  let offset : ℚ := (height / 2) + font_height
  [⟨0, -offset⟩, ⟨0, offset + 0.5⟩, ⟨0, 0.525⟩]

/-- The function `kicad_mod_courtyard` of `apw.c`: the four printed records. -/
def kicad_mod_courtyard (current_config : component_config_t) : List line_t :=
  let ox : ℚ := current_config.a / 2
  let oy : ℚ := current_config.c / 2
  [ ⟨⟨-ox, -oy⟩, ⟨ox, -oy⟩, 0.05, "F.CrtYd"⟩,
    ⟨⟨-ox, oy⟩, ⟨-ox, -oy⟩, 0.05, "F.CrtYd"⟩,
    ⟨⟨ox, oy⟩, ⟨-ox, oy⟩, 0.05, "F.CrtYd"⟩,
    ⟨⟨ox, -oy⟩, ⟨ox, oy⟩, 0.05, "F.CrtYd"⟩ ]

/-- The function `pad` of `apw.c`: the printed pad record as a `pad_t`.
`component_via_outside` is the global read through `COMPONENT_VIA_OUTSIDE`.  A
printed `smd` record has no drill part; it is modelled by the zero drill
record. -/
def pad (component_via_outside : Int) (n : Int) (px py sx sy : ℚ) (th : Int) : pad_t :=
  if th ≠ 0 then
    let o : ℚ × ℚ :=
      if sx > sy then
        (if px < 0 then (sx / 4, 0) else (-(sx / 4), 0))
      else
        (if py < 0 then (0, sy / 4) else (0, -(sy / 4)))
    let ox : ℚ := if component_via_outside = 0 then o.1 * -1 else o.1
    let oy : ℚ := if component_via_outside = 0 then o.2 * -1 else o.2
    { number := n
      position := ⟨px - ox, py - oy⟩
      size := ⟨sx, sy⟩
      type := pad_type_t.PAD_THROUGHHOLE
      drill := ⟨0.3, ⟨ox, oy⟩⟩
      layers := "\"*.Cu\" \"*.Mask\"" }
  else
    { number := n
      position := ⟨px, py⟩
      size := ⟨sx, sy⟩
      type := pad_type_t.PAD_SMD
      drill := ⟨0, ⟨0, 0⟩⟩
      layers := "\"F.Cu\" \"F.Paste\" \"F.Mask\"" }

/-- One pad loop of `kicad_mod_pads`: `n` calls of `pad`, the position advancing
by `(dx, dy)` after each. -/
def kicad_pad_loop (component_via_outside th : Int) (sx sy dx dy : ℚ) :
    Nat → Int → ℚ → ℚ → List pad_t
  | 0, _, _, _ => []
  | n + 1, i, px, py =>
    pad component_via_outside i px py sx sy th ::
      kicad_pad_loop component_via_outside th sx sy dx dy n (i + 1) (px + dx) (py + dy)

/-- The function `kicad_mod_pads` of `apw.c`: the pad records printed by its
five loops, in order.  `component_pins` and `component_via_outside` are the
globals, `current_config` the selected row. -/
def kicad_mod_pads (current_config : component_config_t) (component_pins : Int)
    (component_via_outside : Int) (throughhole : Int) : List pad_t :=
  let pitch : ℚ := current_config.pitch
  let a : ℚ := current_config.a
  let c : ℚ := current_config.c
  let d : ℚ := current_config.d
  let pad_width : ℚ := current_config.pad_width
  let pad_length : ℚ := (c - d) / 2
  let pins_x : ℚ := (current_config.pins_x : ℚ)
  let pins_y : ℚ := (current_config.pins_y : ℚ)
  let pins_width : ℚ := pins_x * pitch
  let pins_height : ℚ := pins_y * pitch
  let c0 : Int := 1
  let c1 : Int := c0 + Int.tdiv current_config.pins_x 2
  let c2 : Int := c1 + 1
  let c3 : Int := c2 + (current_config.pins_y - 1)
  let c4 : Int := c3 + 1
  let c5 : Int := c4 + (current_config.pins_x - 1)
  let c6 : Int := c5 + 1
  let c7 : Int := c6 + (current_config.pins_x - 1)
  let c8 : Int := c7 + 1
  let c9 : Int := component_pins
  kicad_pad_loop component_via_outside throughhole pad_width pad_length pitch 0
      (loop_count c0 c1) c0 0 (-(c - pad_length) / 2) ++
    kicad_pad_loop component_via_outside throughhole pad_length pad_width 0 pitch
      (loop_count c2 c3) c2 ((a - pad_length) / 2) (-(pins_height - pitch) / 2) ++
    kicad_pad_loop component_via_outside throughhole pad_width pad_length (-pitch) 0
      (loop_count c4 c5) c4 ((pins_width - pitch) / 2) ((c - pad_length) / 2) ++
    kicad_pad_loop component_via_outside throughhole pad_length pad_width 0 (-pitch)
      (loop_count c6 c7) c6 (-(a - pad_length) / 2) ((pins_height - pitch) / 2) ++
    kicad_pad_loop component_via_outside throughhole pad_width pad_length pitch 0
      (loop_count c8 c9) c8 (-(pins_width - pitch) / 2) (-(c - pad_length) / 2)

/-- The footprint `main` of `apw.c` prints after option parsing, as one
geometry record: `kicad_mod_texts(COMPONENT_A)`, the two `kicad_mod_silkscreen`
calls, `kicad_mod_courtyard`, `kicad_mod_fabrication` and
`kicad_mod_pads(COMPONENT_THROUGHHOLE)`. -/
def apw_footprint (current_config : component_config_t) (component_pins : Int)
    (component_throughhole component_via_outside : Int) : footprint_geometry_t :=
  { pads := kicad_mod_pads current_config component_pins component_via_outside
      component_throughhole
    silkscreen_lines :=
      kicad_mod_silkscreen current_config "F.SilkS" ++
        kicad_mod_silkscreen current_config "B.SilkS"
    fab_lines := kicad_mod_fabrication
    courtyard_lines := kicad_mod_courtyard current_config
    text_positions := kicad_mod_texts current_config.a }

/-! ### Command line

`getopt_long` is a library function; the sequence of options it returns for the
command line is the input of the model.  Usage and error messages are not
modelled. -/

/-- One option returned by `getopt_long`: `opt_p n` is the option `--pins` with
`n = atoi(optarg)`, `opt_o` is the option `--outfile`, `opt_d`, `opt_s`, `opt_v`,
`opt_V`, `opt_h` are the flags, `opt_other` is any other return value. -/
inductive cli_opt where
  | opt_p (n : Int)
  | opt_o (path : String)
  | opt_d
  | opt_s
  | opt_v
  | opt_V
  | opt_h
  | opt_other
deriving DecidableEq, Repr

/-- The local variables of `main` of `plcc-gen.c` that the option loop
writes. -/
structure main_vars where
  outfile : Option String
  pins_specified : Int
  pins : Int
  opts : footprint_options_t
deriving DecidableEq, Repr

/-- The option loop of `main` of `plcc-gen.c`; `Except.error status` is a
`return status` inside the loop. -/
def main_loop : List cli_opt → main_vars → Except Int main_vars
  | [], st => Except.ok st
  | cli_opt.opt_p n :: rest, st => main_loop rest { st with pins := n, pins_specified := 1 }
  | cli_opt.opt_o path :: rest, st => main_loop rest { st with outfile := some path }
  | cli_opt.opt_d :: rest, st =>
    main_loop rest { st with opts := { st.opts with double_sided := 1 } }
  | cli_opt.opt_s :: rest, st =>
    main_loop rest { st with opts := { st.opts with double_sided := 0 } }
  | cli_opt.opt_v :: rest, st =>
    main_loop rest { st with opts := { st.opts with via_outside := 1 } }
  | cli_opt.opt_V :: rest, st =>
    main_loop rest { st with opts := { st.opts with via_outside := 0 } }
  | cli_opt.opt_h :: _, _ => Except.error 0
  | cli_opt.opt_other :: _, _ => Except.error 1

/-- Outcome of `main` of `plcc-gen.c`: the exit status and, when
`write_kicad_footprint` is reached, its arguments. -/
structure main_result where
  status : Int
  written : Option (component_spec_t × footprint_options_t × footprint_geometry_t)
deriving DecidableEq, Repr

/-- The function `main` of `plcc-gen.c`.  `fopen_ok path` tells whether
`fopen(path, "w")` succeeds; the allocation in `generate_geometry` is taken to
succeed. -/
def main (fopen_ok : String → Bool) (args : List cli_opt) : main_result :=
  match main_loop args
      ⟨none, 0, 0, ⟨1, 1, "00000000-0000-0000-0000-000000000000"⟩⟩ with
  | Except.error status => ⟨status, none⟩
  | Except.ok st =>
    if st.pins_specified = 0 then ⟨1, none⟩
    else
      match find_component_by_pins st.pins with
      | none => ⟨1, none⟩
      | some spec =>
        match st.outfile with
        | some path =>
          if fopen_ok path = false then ⟨1, none⟩
          else ⟨0, some (spec, st.opts, generate_geometry spec st.opts)⟩
        | none => ⟨0, some (spec, st.opts, generate_geometry spec st.opts)⟩

/-- The globals and locals of `apw.c` that its option loop writes. -/
structure apw_vars where
  component_pins : Int
  current_config : Option component_config_t
  component_throughhole : Int
  component_via_outside : Int
  outfile : Option String
  pins_specified : Int
deriving DecidableEq, Repr

/-- The option loop of `main` of `apw.c`; an unsupported pin count returns 1
inside the loop. -/
def apw_main_loop : List cli_opt → apw_vars → Except Int apw_vars
  | [], st => Except.ok st
  | cli_opt.opt_p n :: rest, st =>
    match get_config_for_pins n with
    | none => Except.error 1
    | some cfg =>
      apw_main_loop rest
        { st with component_pins := n, current_config := some cfg, pins_specified := 1 }
  | cli_opt.opt_o path :: rest, st => apw_main_loop rest { st with outfile := some path }
  | cli_opt.opt_d :: rest, st => apw_main_loop rest { st with component_throughhole := 1 }
  | cli_opt.opt_s :: rest, st => apw_main_loop rest { st with component_throughhole := 0 }
  | cli_opt.opt_v :: rest, st => apw_main_loop rest { st with component_via_outside := 1 }
  | cli_opt.opt_V :: rest, st => apw_main_loop rest { st with component_via_outside := 0 }
  | cli_opt.opt_h :: _, _ => Except.error 0
  | cli_opt.opt_other :: _, _ => Except.error 1

/-- Outcome of `main` of `apw.c`: the exit status and, when the footprint is
printed, the selected row, `component_pins`, `component_throughhole`,
`component_via_outside` and the printed footprint. -/
structure apw_result where
  status : Int
  written : Option (component_config_t × Int × Int × Int × footprint_geometry_t)
deriving DecidableEq, Repr

/-- The function `main` of `apw.c`.  `pins_specified` is set only together with a
non-null `current_config`, so the `none` branch after the loop is never
taken. -/
def apw_main (fopen_ok : String → Bool) (args : List cli_opt) : apw_result :=
  match apw_main_loop args ⟨0, none, 1, 1, none, 0⟩ with
  | Except.error status => ⟨status, none⟩
  | Except.ok st =>
    if st.pins_specified = 0 then ⟨1, none⟩
    else
      match st.current_config with
      | none => ⟨1, none⟩
      | some cfg =>
        match st.outfile with
        | some path =>
          if fopen_ok path = false then ⟨1, none⟩
          else
            ⟨0, some (cfg, st.component_pins, st.component_throughhole,
              st.component_via_outside,
              apw_footprint cfg st.component_pins st.component_throughhole
                st.component_via_outside)⟩
        | none =>
          ⟨0, some (cfg, st.component_pins, st.component_throughhole,
            st.component_via_outside,
            apw_footprint cfg st.component_pins st.component_throughhole
              st.component_via_outside)⟩

/-- The `component_spec_t` row that carries the data of an `apw.c` row together
with its pin count. -/
def spec_of_config (cfg : component_config_t) (pins : Int) : component_spec_t :=
  ⟨cfg.name, pins, cfg.pins_x, cfg.pins_y, cfg.pitch, ⟨cfg.a, cfg.b, cfg.c, cfg.d⟩,
    cfg.pad_width⟩

/-! ### Bounds of `pads[128]` and of `int`

A second embedding of `calculate_pin_positions` that keeps the capacity of the
array `pad_t pads[128]` of `footprint_geometry_t` and the range of the C type
`int`: its result is `none` where the C function would write past the array or
overflow a signed integer (undefined behaviour in both cases). -/

/-- Range of the C type `int` (32 bits). -/
def int_range (z : Int) : Prop := -2147483648 ≤ z ∧ z ≤ 2147483647

/-- Membership in the range of `int` is decidable. -/
instance int_range_decidable (z : Int) : Decidable (int_range z) :=
  inferInstanceAs (Decidable (-2147483648 ≤ z ∧ z ≤ 2147483647))

/-- The pin range table of `calculate_pin_positions` is computed within `int`:
the three `int` fields of `spec`, the differences `pins_x - 1` and `pins_y - 1`
and the entries `cp[1]` to `cp[8]` lie in the range of `int`. -/
def cp_in_range (spec : component_spec_t) : Prop :=
  int_range spec.pins ∧ int_range spec.pins_x ∧ int_range spec.pins_y ∧
    int_range (spec.pins_x - 1) ∧ int_range (spec.pins_y - 1) ∧
    int_range (cp1 spec) ∧ int_range (cp2 spec) ∧ int_range (cp3 spec) ∧
    int_range (cp4 spec) ∧ int_range (cp5 spec) ∧ int_range (cp6 spec) ∧
    int_range (cp7 spec) ∧ int_range (cp8 spec)

/-- The condition `cp_in_range` is decidable. -/
instance cp_in_range_decidable (spec : component_spec_t) : Decidable (cp_in_range spec) := by
  unfold cp_in_range
  infer_instance

/-- One pad loop writing through `&geom->pads[geom->pad_count++]`: `pads` holds
the pads written so far, so the next pad goes to index `pads.length`.  The
result is `none` when that index is not below the capacity 128 of `pads`, or
when the increment `i++` leaves the range of `int`. -/
def pad_loop_checked (opts : footprint_options_t) (sx sy dx dy : ℚ) :
    Nat → Int → ℚ → ℚ → List pad_t → Option (List pad_t)
  | 0, _, _, _, pads => some pads
  | n + 1, i, px, py, pads =>
    if pads.length < 128 ∧ int_range (i + 1) then
      pad_loop_checked opts sx sy dx dy n (i + 1) (px + dx) (py + dy)
        (pads ++ [emit_pad opts i px py sx sy])
    else none

/-- The function `calculate_pin_positions` with the capacity of `pads[128]` and
the range of `int` observed: the five loops in source order, each continuing
with the pads of the loops before it. -/
def calculate_pin_positions_checked (spec : component_spec_t) (opts : footprint_options_t) :
    Option (List pad_t) :=
  if cp_in_range spec then
    (pad_loop_checked opts spec.pad_width (pad_length spec) spec.pitch 0
        (loop_count (cp0 spec) (cp1 spec)) (cp0 spec)
        0 (-(spec.body.c - pad_length spec) / 2) []).bind fun top1 =>
    (pad_loop_checked opts (pad_length spec) spec.pad_width 0 spec.pitch
        (loop_count (cp2 spec) (cp3 spec)) (cp2 spec)
        ((spec.body.a - pad_length spec) / 2) (-(pins_height spec - spec.pitch) / 2)
        top1).bind fun right =>
    (pad_loop_checked opts spec.pad_width (pad_length spec) (-spec.pitch) 0
        (loop_count (cp4 spec) (cp5 spec)) (cp4 spec)
        ((pins_width spec - spec.pitch) / 2) ((spec.body.c - pad_length spec) / 2)
        right).bind fun bottom =>
    (pad_loop_checked opts (pad_length spec) spec.pad_width 0 (-spec.pitch)
        (loop_count (cp6 spec) (cp7 spec)) (cp6 spec)
        (-(spec.body.a - pad_length spec) / 2) ((pins_height spec - spec.pitch) / 2)
        bottom).bind fun left =>
    pad_loop_checked opts spec.pad_width (pad_length spec) spec.pitch 0
        (loop_count (cp8 spec) (cp9 spec)) (cp8 spec)
        (-(pins_width spec - spec.pitch) / 2) (-(spec.body.c - pad_length spec) / 2)
        left
  else none

/-! ### Binary64 arithmetic

The stored value of a C `double` is a rational number.  `round_f64` rounds a
rational to the nearest binary64 value, ties to even (53-bit significand; the
exponent range is not modelled, so there is neither overflow nor a subnormal
range; the lemma `round_f64_spec` below states the rounding property).  In the
second embedding of the pad layout below every decimal literal
of the source is rounded once and every arithmetic operation rounds its exact
result (no fused multiply-add, no extended precision). -/

/-- Index of the leading binary digit of `n` (`0` for `n < 2`), found by
dividing by `2 ^ 64`, `2 ^ 16`, `2 ^ 4` or `2` at most `fuel` times
(`Nat.ble a b` is the test `a ≤ b`); `log2_fuel n n` is the binary logarithm of
`n` rounded down. -/
def log2_fuel : Nat → Nat → Nat
  | 0, _ => 0
  | fuel + 1, n =>
    bif Nat.ble (2 ^ 64) n then log2_fuel fuel (n / 2 ^ 64) + 64
    else bif Nat.ble (2 ^ 16) n then log2_fuel fuel (n / 2 ^ 16) + 16
    else bif Nat.ble (2 ^ 4) n then log2_fuel fuel (n / 2 ^ 4) + 4
    else bif Nat.ble 2 n then log2_fuel fuel (n / 2) + 1
    else 0

/-- The binary64 value nearest to the positive rational `n / d` (`0 < n`,
`0 < d`), ties to even.  With `ln`, `ld` the binary logarithms of `n` and `d`,
the quotient `N / D0` lies between `2 ^ 52` and `2 ^ 54`; `D` is chosen so that
the significand `m = N / D` has exactly 53 bits, `r` is the remainder that
decides the rounding, and the result is `m2 * (D / d) / 2 ^ (ld + 53)`, where
`D / d` is the power of two `2 ^ ln` or `2 ^ (ln + 1)`. -/
def round_pos_f64 (n d : Nat) : ℚ :=
  let ln : Nat := log2_fuel n n
  let ld : Nat := log2_fuel d d
  let N : Nat := n * 2 ^ (ld + 53)
  let D0 : Nat := d * 2 ^ ln
  let D : Nat := if 2 ^ 53 * D0 ≤ N then 2 * D0 else D0
  let m : Nat := N / D
  let r : Nat := N % D
  let m2 : Nat := if D < 2 * r ∨ (2 * r = D ∧ m % 2 = 1) then m + 1 else m
  mkRat (m2 * (D / d) : Nat) (2 ^ (ld + 53))

/-- Rounding of a rational to the nearest binary64 value, ties to even: the
magnitude is rounded and the sign, which is the sign of the numerator, is kept. -/
def round_f64 (q : ℚ) : ℚ :=
  if 0 < q.num then round_pos_f64 q.num.natAbs q.den
  else if q.num < 0 then -round_pos_f64 q.num.natAbs q.den
  else 0

/-- Binary64 addition. -/
def f64_add (x y : ℚ) : ℚ := round_f64 (x + y)

/-- Binary64 subtraction. -/
def f64_sub (x y : ℚ) : ℚ := round_f64 (x - y)

/-- Binary64 multiplication. -/
def f64_mul (x y : ℚ) : ℚ := round_f64 (x * y)

/-- Binary64 division. -/
def f64_div (x y : ℚ) : ℚ := round_f64 (x / y)

/-- Body of the pad loops of `calculate_pin_positions` in binary64 arithmetic. -/
def emit_pad_f64 (opts : footprint_options_t) (i : Int) (px py sx sy : ℚ) : pad_t :=
  let type : pad_type_t :=
    if opts.double_sided ≠ 0 then pad_type_t.PAD_THROUGHHOLE else pad_type_t.PAD_SMD
  if type = pad_type_t.PAD_THROUGHHOLE then
    let ox : ℚ := if sx > sy then (if px < 0 then f64_div sx 4 else f64_div (-sx) 4) else 0
    let oy : ℚ := if sx ≤ sy then (if py < 0 then f64_div sy 4 else f64_div (-sy) 4) else 0
    let ox : ℚ := if opts.via_outside = 0 then f64_mul ox (-1) else ox
    let oy : ℚ := if opts.via_outside = 0 then f64_mul oy (-1) else oy
    { number := i
      position := ⟨f64_sub px ox, f64_sub py oy⟩
      size := ⟨sx, sy⟩
      type := type
      drill := ⟨round_f64 0.3, ⟨ox, oy⟩⟩
      layers := "\"*.Cu\" \"*.Mask\"" }
  else
    { number := i
      position := ⟨px, py⟩
      size := ⟨sx, sy⟩
      type := type
      drill := ⟨0, ⟨0, 0⟩⟩
      layers := "\"F.Cu\" \"F.Paste\" \"F.Mask\"" }

/-- One pad loop in binary64 arithmetic: after each pad the position advances
by the rounded sum with `(dx, dy)` (the source statements `px += pitch`,
`py += pitch`, `px -= pitch`, `py -= pitch`; subtracting the pitch is adding
its negative).  Each loop of the source advances one coordinate only: the
coordinate whose advance is zero is left as it is. -/
def pad_loop_f64 (opts : footprint_options_t) (sx sy dx dy : ℚ) :
    Nat → Int → ℚ → ℚ → List pad_t
  | 0, _, _, _ => []
  | n + 1, i, px, py =>
    emit_pad_f64 opts i px py sx sy ::
      pad_loop_f64 opts sx sy dx dy n (i + 1) (if dx = 0 then px else f64_add px dx)
        (if dy = 0 then py else f64_add py dy)

/-- The function `calculate_pin_positions` in binary64 arithmetic: the `double`
fields of `spec` hold the binary64 values nearest to the decimals of the
table, and every operation of the source rounds to binary64. -/
def calculate_pin_positions_f64 (spec : component_spec_t) (opts : footprint_options_t) :
    List pad_t :=
  let pitch : ℚ := round_f64 spec.pitch
  let a : ℚ := round_f64 spec.body.a
  let c : ℚ := round_f64 spec.body.c
  let d : ℚ := round_f64 spec.body.d
  let pad_width : ℚ := round_f64 spec.pad_width
  let pad_length : ℚ := f64_div (f64_sub c d) 2
  let pins_width : ℚ := f64_mul (spec.pins_x : ℚ) pitch
  let pins_height : ℚ := f64_mul (spec.pins_y : ℚ) pitch
  pad_loop_f64 opts pad_width pad_length pitch 0
      (loop_count (cp0 spec) (cp1 spec)) (cp0 spec)
      0 (f64_div (-(f64_sub c pad_length)) 2) ++
    pad_loop_f64 opts pad_length pad_width 0 pitch
      (loop_count (cp2 spec) (cp3 spec)) (cp2 spec)
      (f64_div (f64_sub a pad_length) 2) (f64_div (-(f64_sub pins_height pitch)) 2) ++
    pad_loop_f64 opts pad_width pad_length (-pitch) 0
      (loop_count (cp4 spec) (cp5 spec)) (cp4 spec)
      (f64_div (f64_sub pins_width pitch) 2) (f64_div (f64_sub c pad_length) 2) ++
    pad_loop_f64 opts pad_length pad_width 0 (-pitch)
      (loop_count (cp6 spec) (cp7 spec)) (cp6 spec)
      (f64_div (-(f64_sub a pad_length)) 2) (f64_div (f64_sub pins_height pitch) 2) ++
    pad_loop_f64 opts pad_width pad_length pitch 0
      (loop_count (cp8 spec) (cp9 spec)) (cp8 spec)
      (f64_div (-(f64_sub pins_width pitch)) 2) (f64_div (-(f64_sub c pad_length)) 2)

/-! ## Loop lemmas -/

theorem pad_loop_eq_map (opts : footprint_options_t) (sx sy dx dy : ℚ) :
    ∀ (n : Nat) (i : Int) (px py : ℚ),
      pad_loop opts sx sy dx dy n i px py
        = (slot_loop sx sy dx dy n i px py).map (place opts) := by
  intro n
  induction n with
  | zero => intro i px py; rfl
  | succ n ih =>
    intro i px py
    simp [pad_loop, slot_loop, place, ih]

theorem slot_loop_eq_range (sx sy dx dy : ℚ) :
    ∀ (n : Nat) (i : Int) (px py : ℚ),
      slot_loop sx sy dx dy n i px py
        = (List.range n).map
            (fun (k : Nat) => (⟨i + (k : Int), px + (k : ℚ) * dx, py + (k : ℚ) * dy, sx, sy⟩ : pin_slot)) := by
  intro n
  induction n with
  | zero => intro i px py; rfl
  | succ n ih =>
    intro i px py
    rw [List.range_succ_eq_map, slot_loop, ih]
    simp only [List.map_cons, List.map_map]
    congr 1
    · simp
    · apply List.map_congr_left
      intro k _
      simp only [Function.comp, Nat.succ_eq_add_one, pin_slot.mk.injEq, and_true]
      push_cast
      refine ⟨by ring, by ring, by ring⟩

theorem calculate_pin_positions_eq_map (spec : component_spec_t) (opts : footprint_options_t) :
    calculate_pin_positions spec opts = (pin_slots spec).map (place opts) := by
  simp [calculate_pin_positions, pads_top1, pads_right, pads_bottom, pads_left, pads_top2,
    pin_slots, pad_loop_eq_map]

theorem place_number (opts : footprint_options_t) (s : pin_slot) :
    (place opts s).number = s.i := by
  unfold place emit_pad
  simp only
  split <;> rfl

theorem numbers_eq (spec : component_spec_t) (opts : footprint_options_t) :
    (calculate_pin_positions spec opts).map pad_t.number = (pin_slots spec).map pin_slot.i := by
  rw [calculate_pin_positions_eq_map, List.map_map]
  apply List.map_congr_left
  intro s _
  exact place_number opts s

theorem mem_component_specs {spec : component_spec_t} (h : spec ∈ component_specs) :
    spec = APW9322 ∨ spec = APW9323 ∨ spec = APW9324 ∨ spec = APW9325 ∨ spec = APW9326 ∨
      spec = APW9327 ∨ spec = APW9328 := by
  simpa [component_specs] using h

theorem length_pad_loop (opts : footprint_options_t) (sx sy dx dy : ℚ) :
    ∀ (n : Nat) (i : Int) (px py : ℚ), (pad_loop opts sx sy dx dy n i px py).length = n := by
  intro n
  induction n with
  | zero => intro i px py; rfl
  | succ n ih => intro i px py; simp [pad_loop, ih]

theorem mem_pad_loop {opts : footprint_options_t} {sx sy dx dy : ℚ} {n : Nat} {i : Int}
    {px py : ℚ} {p : pad_t} :
    p ∈ pad_loop opts sx sy dx dy n i px py ↔
      ∃ k : Nat, k < n ∧
        p = emit_pad opts (i + (k : Int)) (px + (k : ℚ) * dx) (py + (k : ℚ) * dy) sx sy := by
  rw [pad_loop_eq_map, slot_loop_eq_range]
  simp only [List.mem_map, List.mem_range, place]
  constructor
  · rintro ⟨s, ⟨k, hk, rfl⟩, rfl⟩
    exact ⟨k, hk, rfl⟩
  · rintro ⟨k, hk, rfl⟩
    exact ⟨_, ⟨k, hk, rfl⟩, rfl⟩

theorem emit_pad_smd (opts : footprint_options_t) (h : opts.double_sided = 0) (i : Int)
    (px py sx sy : ℚ) :
    emit_pad opts i px py sx sy =
      { number := i
        position := ⟨px, py⟩
        size := ⟨sx, sy⟩
        type := pad_type_t.PAD_SMD
        drill := ⟨0, ⟨0, 0⟩⟩
        layers := "\"F.Cu\" \"F.Paste\" \"F.Mask\"" } := by
  simp [emit_pad, h]

theorem emit_pad_th (opts : footprint_options_t) (h : opts.double_sided ≠ 0) (i : Int)
    (px py sx sy : ℚ) :
    emit_pad opts i px py sx sy =
      { number := i
        position :=
          ⟨px - (if opts.via_outside = 0
                  then (if sx > sy then (if px < 0 then sx / 4 else -sx / 4) else 0) * -1
                  else (if sx > sy then (if px < 0 then sx / 4 else -sx / 4) else 0)),
           py - (if opts.via_outside = 0
                  then (if sx ≤ sy then (if py < 0 then sy / 4 else -sy / 4) else 0) * -1
                  else (if sx ≤ sy then (if py < 0 then sy / 4 else -sy / 4) else 0))⟩
        size := ⟨sx, sy⟩
        type := pad_type_t.PAD_THROUGHHOLE
        drill :=
          ⟨0.3,
            ⟨if opts.via_outside = 0
                then (if sx > sy then (if px < 0 then sx / 4 else -sx / 4) else 0) * -1
                else (if sx > sy then (if px < 0 then sx / 4 else -sx / 4) else 0),
             if opts.via_outside = 0
                then (if sx ≤ sy then (if py < 0 then sy / 4 else -sy / 4) else 0) * -1
                else (if sx ≤ sy then (if py < 0 then sy / 4 else -sy / 4) else 0)⟩⟩
        layers := "\"*.Cu\" \"*.Mask\"" } := by
  simp [emit_pad, h]

theorem emit_pad_number (opts : footprint_options_t) (i : Int) (px py sx sy : ℚ) :
    (emit_pad opts i px py sx sy).number = i := by
  unfold emit_pad
  simp only
  split <;> rfl

theorem emit_pad_size (opts : footprint_options_t) (i : Int) (px py sx sy : ℚ) :
    (emit_pad opts i px py sx sy).size = ⟨sx, sy⟩ := by
  unfold emit_pad
  simp only
  split <;> rfl

theorem place_smd (opts : footprint_options_t) (h : opts.double_sided = 0) (s : pin_slot) :
    place opts s =
      { number := s.i
        position := ⟨s.px, s.py⟩
        size := ⟨s.sx, s.sy⟩
        type := pad_type_t.PAD_SMD
        drill := ⟨0, ⟨0, 0⟩⟩
        layers := "\"F.Cu\" \"F.Paste\" \"F.Mask\"" } :=
  emit_pad_smd opts h _ _ _ _ _

theorem length_groups (spec : component_spec_t) (opts : footprint_options_t) :
    (pads_top1 spec opts).length = loop_count (cp0 spec) (cp1 spec) ∧
      (pads_right spec opts).length = loop_count (cp2 spec) (cp3 spec) ∧
      (pads_bottom spec opts).length = loop_count (cp4 spec) (cp5 spec) ∧
      (pads_left spec opts).length = loop_count (cp6 spec) (cp7 spec) ∧
      (pads_top2 spec opts).length = loop_count (cp8 spec) (cp9 spec) := by
  simp [pads_top1, pads_right, pads_bottom, pads_left, pads_top2, length_pad_loop]

theorem numbers_pad_loop (opts : footprint_options_t) (sx sy dx dy : ℚ) :
    ∀ (n : Nat) (i : Int) (px py : ℚ),
      (pad_loop opts sx sy dx dy n i px py).map pad_t.number
        = (List.range n).map (fun (k : Nat) => i + (k : Int)) := by
  intro n i px py
  rw [pad_loop_eq_map, slot_loop_eq_range]
  simp only [List.map_map]
  apply List.map_congr_left
  intro k _
  simp [place_number]

theorem chain_pad_loop_smd (opts : footprint_options_t) (h : opts.double_sided = 0)
    (sx sy dx dy : ℚ) :
    ∀ (n : Nat) (i : Int) (px py : ℚ),
      List.Chain'
        (fun p q : pad_t => q.number = p.number + 1 ∧ q.position.x = p.position.x + dx ∧
          q.position.y = p.position.y + dy)
        (pad_loop opts sx sy dx dy n i px py) := by
  intro n
  induction n with
  | zero => intro i px py; exact List.chain'_nil
  | succ n ih =>
    intro i px py
    cases n with
    | zero => simp [pad_loop]
    | succ m =>
      have hm := ih (i + 1) (px + dx) (py + dy)
      rw [pad_loop] at hm ⊢
      rw [pad_loop]
      refine List.Chain'.cons ?_ hm
      simp [emit_pad_smd opts h]

theorem getElem?_calculate_pin_positions (spec : component_spec_t)
    (opts : footprint_options_t) (k : Nat) (p : pad_t) :
    (calculate_pin_positions spec opts)[k]? = some p ↔
      ∃ s, (pin_slots spec)[k]? = some s ∧ place opts s = p := by
  rw [calculate_pin_positions_eq_map, List.getElem?_map, Option.map_eq_some']

theorem mem_calculate_pin_positions (spec : component_spec_t) (opts : footprint_options_t)
    (p : pad_t) :
    p ∈ calculate_pin_positions spec opts ↔ ∃ s ∈ pin_slots spec, place opts s = p := by
  rw [calculate_pin_positions_eq_map, List.mem_map]

theorem slot_shape (spec : component_spec_t) :
    ∀ s ∈ pin_slots spec,
      (s.sx = spec.pad_width ∧ s.sy = pad_length spec ∧
          (s.py = -(spec.body.c - pad_length spec) / 2 ∨
            s.py = (spec.body.c - pad_length spec) / 2)) ∨
        (s.sx = pad_length spec ∧ s.sy = spec.pad_width ∧
          (s.px = (spec.body.a - pad_length spec) / 2 ∨
            s.px = -(spec.body.a - pad_length spec) / 2)) := by
  intro s hs
  simp only [pin_slots, List.mem_append, slot_loop_eq_range, List.mem_map, List.mem_range] at hs
  rcases hs with (((⟨k, _, rfl⟩ | ⟨k, _, rfl⟩) | ⟨k, _, rfl⟩) | ⟨k, _, rfl⟩) | ⟨k, _, rfl⟩ <;>
    simp

theorem catalog_dims {spec : component_spec_t} (h : spec ∈ component_specs) :
    0 < spec.pad_width ∧ spec.pad_width < pad_length spec ∧
      pad_length spec < spec.body.c ∧ pad_length spec < spec.body.a := by
  rcases mem_component_specs h with rfl | rfl | rfl | rfl | rfl | rfl | rfl <;>
    norm_num [pad_length, APW9322, APW9323, APW9324, APW9325, APW9326, APW9327, APW9328]

theorem catalog_drill_room {spec : component_spec_t} (h : spec ∈ component_specs) :
    (3 / 10 : ℚ) ≤ spec.pad_width ∧ (3 / 5 : ℚ) ≤ pad_length spec := by
  rcases mem_component_specs h with rfl | rfl | rfl | rfl | rfl | rfl | rfl <;>
    norm_num [pad_length, APW9322, APW9323, APW9324, APW9325, APW9326, APW9327, APW9328]

theorem generate_geometry_pads (spec : component_spec_t) (opts : footprint_options_t) :
    (generate_geometry spec opts).pads = calculate_pin_positions spec opts := rfl

theorem generate_geometry_fab_lines (spec : component_spec_t) (opts : footprint_options_t) :
    (generate_geometry spec opts).fab_lines
      = (generate_fabrication_lines calloc_geometry spec).fab_lines := rfl

theorem silkscreen_lines_append (geom : footprint_geometry_t) (spec : component_spec_t)
    (layer : String) :
    (generate_silkscreen_lines geom spec layer).silkscreen_lines
      = geom.silkscreen_lines ++ silkscreen_segments spec layer := rfl

theorem drop_silkscreen_lines (geom : footprint_geometry_t) (spec : component_spec_t)
    (layer : String) (k : Nat) :
    (generate_silkscreen_lines geom spec layer).silkscreen_lines.drop
        (geom.silkscreen_lines.length + k)
      = (silkscreen_segments spec layer).drop k := by
  rw [silkscreen_lines_append, List.drop_append]

theorem length_calculate_pin_positions (spec : component_spec_t)
    (opts : footprint_options_t) :
    (calculate_pin_positions spec opts).length
      = loop_count (cp0 spec) (cp1 spec) + loop_count (cp2 spec) (cp3 spec) +
          loop_count (cp4 spec) (cp5 spec) + loop_count (cp6 spec) (cp7 spec) +
          loop_count (cp8 spec) (cp9 spec) := by
  obtain ⟨l1, l2, l3, l4, l5⟩ := length_groups spec opts
  simp only [calculate_pin_positions, List.length_append, l1, l2, l3, l4, l5]

theorem pad_eq_emit_pad (th via : Int) (ts : String) (i : Int) (px py sx sy : ℚ) :
    pad via i px py sx sy th = emit_pad ⟨th, via, ts⟩ i px py sx sy := by
  by_cases hth : th = 0
  · simp [pad, emit_pad, hth]
  · rw [emit_pad_th ⟨th, via, ts⟩ hth]
    by_cases hs : sx > sy
    · have hle : ¬ sx ≤ sy := not_le.mpr hs
      by_cases hp : px < 0 <;> by_cases hv : via = 0 <;>
        simp [pad, hth, hs, hle, hp, hv, neg_div]
    · have hle : sx ≤ sy := not_lt.mp hs
      by_cases hp : py < 0 <;> by_cases hv : via = 0 <;>
        simp [pad, hth, hs, hle, hp, hv, neg_div]

theorem kicad_pad_loop_eq (th via : Int) (ts : String) (sx sy dx dy : ℚ) :
    ∀ (n : Nat) (i : Int) (px py : ℚ),
      kicad_pad_loop via th sx sy dx dy n i px py
        = pad_loop ⟨th, via, ts⟩ sx sy dx dy n i px py := by
  intro n
  induction n with
  | zero => intro i px py; rfl
  | succ n ih =>
    intro i px py
    simp only [kicad_pad_loop, pad_loop, ih, pad_eq_emit_pad th via ts]

theorem kicad_mod_pads_eq (cfg : component_config_t) (pins th via : Int) (ts : String) :
    kicad_mod_pads cfg pins via th
      = calculate_pin_positions (spec_of_config cfg pins) ⟨th, via, ts⟩ := by
  simp only [kicad_mod_pads, kicad_pad_loop_eq th via ts]
  rfl

theorem find_component_by_pins_eq_none {n : Int}
    (hn : n ∉ ([20, 28, 32, 44, 52, 68, 84] : List Int)) :
    find_component_by_pins n = none := by
  simp only [List.mem_cons, List.mem_singleton, List.not_mem_nil, or_false, not_or] at hn
  obtain ⟨h1, h2, h3, h4, h5, h6, h7⟩ := hn
  have e1 : ¬ (20 : Int) = n := fun e => h1 e.symm
  have e2 : ¬ (28 : Int) = n := fun e => h2 e.symm
  have e3 : ¬ (32 : Int) = n := fun e => h3 e.symm
  have e4 : ¬ (44 : Int) = n := fun e => h4 e.symm
  have e5 : ¬ (52 : Int) = n := fun e => h5 e.symm
  have e6 : ¬ (68 : Int) = n := fun e => h6 e.symm
  have e7 : ¬ (84 : Int) = n := fun e => h7 e.symm
  simp [find_component_by_pins, component_specs, List.find?, APW9322, APW9323, APW9324,
    APW9325, APW9326, APW9327, APW9328, e1, e2, e3, e4, e5, e6, e7]

theorem get_config_for_pins_eq_none {n : Int}
    (hn : n ∉ ([20, 28, 32, 44, 52, 68, 84] : List Int)) :
    get_config_for_pins n = none := by
  simp only [List.mem_cons, List.mem_singleton, List.not_mem_nil, or_false, not_or] at hn
  obtain ⟨h1, h2, h3, h4, h5, h6, h7⟩ := hn
  have e1 : ¬ (20 : Int) = n := fun e => h1 e.symm
  have e2 : ¬ (28 : Int) = n := fun e => h2 e.symm
  have e3 : ¬ (32 : Int) = n := fun e => h3 e.symm
  have e4 : ¬ (44 : Int) = n := fun e => h4 e.symm
  have e5 : ¬ (52 : Int) = n := fun e => h5 e.symm
  have e6 : ¬ (68 : Int) = n := fun e => h6 e.symm
  have e7 : ¬ (84 : Int) = n := fun e => h7 e.symm
  simp [get_config_for_pins, pin_counts, configs, List.find?, e1, e2, e3, e4, e5, e6, e7]

/-- For a supported pin count both lookups succeed and return the same row. -/
theorem lookup_supported {n : Int} (hn : n ∈ ([20, 28, 32, 44, 52, 68, 84] : List Int)) :
    ∃ cfg, get_config_for_pins n = some cfg ∧
      find_component_by_pins n = some (spec_of_config cfg n) ∧
      spec_of_config cfg n ∈ component_specs := by
  simp only [List.mem_cons, List.mem_singleton, List.not_mem_nil, or_false] at hn
  rcases hn with rfl | rfl | rfl | rfl | rfl | rfl | rfl
  · exact ⟨_, rfl, rfl, by simp [component_specs, spec_of_config, APW9322]⟩
  · exact ⟨_, rfl, rfl, by simp [component_specs, spec_of_config, APW9323]⟩
  · exact ⟨_, rfl, rfl, by simp [component_specs, spec_of_config, APW9324]⟩
  · exact ⟨_, rfl, rfl, by simp [component_specs, spec_of_config, APW9325]⟩
  · exact ⟨_, rfl, rfl, by simp [component_specs, spec_of_config, APW9326]⟩
  · exact ⟨_, rfl, rfl, by simp [component_specs, spec_of_config, APW9327]⟩
  · exact ⟨_, rfl, rfl, by simp [component_specs, spec_of_config, APW9328]⟩

/-- When both lookups succeed they return the same row of a supported count. -/
theorem lookup_agree {n : Int} {spec : component_spec_t} {cfg : component_config_t}
    (hs : find_component_by_pins n = some spec) (hc : get_config_for_pins n = some cfg) :
    spec = spec_of_config cfg n ∧ spec ∈ component_specs ∧
      n ∈ ([20, 28, 32, 44, 52, 68, 84] : List Int) := by
  by_cases hn : n ∈ ([20, 28, 32, 44, 52, 68, 84] : List Int)
  · obtain ⟨cfg2, h1, h2, h3⟩ := lookup_supported hn
    rw [h1] at hc
    rw [h2] at hs
    cases hc
    cases hs
    exact ⟨rfl, h3, hn⟩
  · rw [find_component_by_pins_eq_none hn] at hs
    cases hs

theorem main_loop_flags (rest : List cli_opt) :
    ∀ (flags : List cli_opt) (st : main_vars),
      (∀ a ∈ flags, a = cli_opt.opt_d ∨ a = cli_opt.opt_s ∨ a = cli_opt.opt_v ∨
        a = cli_opt.opt_V ∨ ∃ path, a = cli_opt.opt_o path) →
      ∃ st2 : main_vars, main_loop (flags ++ rest) st = main_loop rest st2 ∧
        st2.pins = st.pins ∧ st2.pins_specified = st.pins_specified := by
  intro flags
  induction flags with
  | nil => intro st _; exact ⟨st, rfl, rfl, rfl⟩
  | cons a flags ih =>
    intro st h
    have ha := h a (List.mem_cons_self a flags)
    have ht : ∀ b ∈ flags, b = cli_opt.opt_d ∨ b = cli_opt.opt_s ∨ b = cli_opt.opt_v ∨
        b = cli_opt.opt_V ∨ ∃ path, b = cli_opt.opt_o path :=
      fun b hb => h b (List.mem_cons_of_mem a hb)
    rcases ha with rfl | rfl | rfl | rfl | ⟨path, rfl⟩
    all_goals
      simp only [List.cons_append, main_loop]
      obtain ⟨st2, e, h1, h2⟩ := ih _ ht
      exact ⟨st2, e, h1, h2⟩

theorem apw_main_loop_flags (rest : List cli_opt) :
    ∀ (flags : List cli_opt) (st : apw_vars),
      (∀ a ∈ flags, a = cli_opt.opt_d ∨ a = cli_opt.opt_s ∨ a = cli_opt.opt_v ∨
        a = cli_opt.opt_V ∨ ∃ path, a = cli_opt.opt_o path) →
      ∃ st2 : apw_vars, apw_main_loop (flags ++ rest) st = apw_main_loop rest st2 := by
  intro flags
  induction flags with
  | nil => intro st _; exact ⟨st, rfl⟩
  | cons a flags ih =>
    intro st h
    have ha := h a (List.mem_cons_self a flags)
    have ht : ∀ b ∈ flags, b = cli_opt.opt_d ∨ b = cli_opt.opt_s ∨ b = cli_opt.opt_v ∨
        b = cli_opt.opt_V ∨ ∃ path, b = cli_opt.opt_o path :=
      fun b hb => h b (List.mem_cons_of_mem a hb)
    rcases ha with rfl | rfl | rfl | rfl | ⟨path, rfl⟩
    all_goals
      simp only [List.cons_append, apw_main_loop]
      exact ih _ ht

/-- The two option loops, started in corresponding states on options whose pin
counts are all supported, either leave with the same status or end in
corresponding states. -/
theorem loops_agree :
    ∀ (args : List cli_opt) (ps : main_vars) (as : apw_vars),
      (∀ n, cli_opt.opt_p n ∈ args → n ∈ ([20, 28, 32, 44, 52, 68, 84] : List Int)) →
      (as.outfile = ps.outfile ∧ as.pins_specified = ps.pins_specified ∧
        as.component_pins = ps.pins ∧ as.component_throughhole = ps.opts.double_sided ∧
        as.component_via_outside = ps.opts.via_outside ∧
        (ps.pins_specified ≠ 0 → ∃ cfg, as.current_config = some cfg ∧
          get_config_for_pins ps.pins = some cfg ∧
          find_component_by_pins ps.pins = some (spec_of_config cfg ps.pins))) →
      (∃ c, main_loop args ps = Except.error c ∧ apw_main_loop args as = Except.error c) ∨
        ∃ ps2 as2, main_loop args ps = Except.ok ps2 ∧ apw_main_loop args as = Except.ok as2 ∧
          (as2.outfile = ps2.outfile ∧ as2.pins_specified = ps2.pins_specified ∧
            as2.component_pins = ps2.pins ∧
            as2.component_throughhole = ps2.opts.double_sided ∧
            as2.component_via_outside = ps2.opts.via_outside ∧
            (ps2.pins_specified ≠ 0 → ∃ cfg, as2.current_config = some cfg ∧
              get_config_for_pins ps2.pins = some cfg ∧
              find_component_by_pins ps2.pins = some (spec_of_config cfg ps2.pins))) := by
  intro args
  induction args with
  | nil =>
    intro ps as _ hR
    exact Or.inr ⟨ps, as, rfl, rfl, hR⟩
  | cons a args ih =>
    intro ps as hsup hR
    obtain ⟨r1, r2, r3, r4, r5, r6⟩ := hR
    have hsup2 : ∀ n, cli_opt.opt_p n ∈ args →
        n ∈ ([20, 28, 32, 44, 52, 68, 84] : List Int) :=
      fun n hn => hsup n (List.mem_cons_of_mem a hn)
    cases a with
    | opt_p n =>
      obtain ⟨cfg, hc, hf, _⟩ := lookup_supported (hsup n (List.mem_cons_self _ _))
      simp only [main_loop, apw_main_loop, hc]
      exact ih _ _ hsup2 ⟨r1, rfl, rfl, r4, r5, fun _ => ⟨cfg, rfl, hc, hf⟩⟩
    | opt_o path =>
      simp only [main_loop, apw_main_loop]
      exact ih _ _ hsup2 ⟨rfl, r2, r3, r4, r5, r6⟩
    | opt_d =>
      simp only [main_loop, apw_main_loop]
      exact ih _ _ hsup2 ⟨r1, r2, r3, rfl, r5, r6⟩
    | opt_s =>
      simp only [main_loop, apw_main_loop]
      exact ih _ _ hsup2 ⟨r1, r2, r3, rfl, r5, r6⟩
    | opt_v =>
      simp only [main_loop, apw_main_loop]
      exact ih _ _ hsup2 ⟨r1, r2, r3, r4, rfl, r6⟩
    | opt_V =>
      simp only [main_loop, apw_main_loop]
      exact ih _ _ hsup2 ⟨r1, r2, r3, r4, rfl, r6⟩
    | opt_h => exact Or.inl ⟨0, rfl, rfl⟩
    | opt_other => exact Or.inl ⟨1, rfl, rfl⟩

/-- On options whose pin counts are all supported the two entry points either
both stop without writing, with the same status, or both write with status 0,
for corresponding selections. -/
theorem mains_agree (fopen_ok : String → Bool) (args : List cli_opt)
    (hsup : ∀ n, cli_opt.opt_p n ∈ args → n ∈ ([20, 28, 32, 44, 52, 68, 84] : List Int)) :
    (∃ c, main fopen_ok args = ⟨c, none⟩ ∧ apw_main fopen_ok args = ⟨c, none⟩) ∨
      ∃ cfg pins th via ts,
        get_config_for_pins pins = some cfg ∧
        find_component_by_pins pins = some (spec_of_config cfg pins) ∧
        main fopen_ok args
          = ⟨0, some (spec_of_config cfg pins, ⟨th, via, ts⟩,
              generate_geometry (spec_of_config cfg pins) ⟨th, via, ts⟩)⟩ ∧
        apw_main fopen_ok args
          = ⟨0, some (cfg, pins, th, via, apw_footprint cfg pins th via)⟩ := by
  have h0 := loops_agree args
    ⟨none, 0, 0, ⟨1, 1, "00000000-0000-0000-0000-000000000000"⟩⟩ ⟨0, none, 1, 1, none, 0⟩ hsup
    ⟨rfl, rfl, rfl, rfl, rfl, fun h => absurd rfl h⟩
  rcases h0 with ⟨c, e1, e2⟩ | ⟨ps, as, e1, e2, r1, r2, r3, r4, r5, r6⟩
  · exact Or.inl ⟨c, by simp only [main, e1], by simp only [apw_main, e2]⟩
  · by_cases hp : ps.pins_specified = 0
    · have ha : as.pins_specified = 0 := by rw [r2, hp]
      exact Or.inl ⟨1, by simp only [main, e1, hp, if_true],
        by simp only [apw_main, e2, ha, if_true]⟩
    · have ha : ¬ as.pins_specified = 0 := by rw [r2]; exact hp
      obtain ⟨cfg, hcur, hc, hf⟩ := r6 hp
      cases ho : ps.outfile with
      | none =>
        have hao : as.outfile = none := by rw [r1, ho]
        refine Or.inr ⟨cfg, ps.pins, ps.opts.double_sided, ps.opts.via_outside,
          ps.opts.timestamp, hc, hf, ?_, ?_⟩
        · simp only [main, e1, hp, if_false, hf, ho]
        · simp only [apw_main, e2, ha, if_false, hcur, hao, r3, r4, r5]
      | some path =>
        have hao : as.outfile = some path := by rw [r1, ho]
        by_cases hopen : fopen_ok path = false
        · exact Or.inl ⟨1, by simp only [main, e1, hp, if_false, hf, ho, hopen, if_true],
            by simp only [apw_main, e2, ha, if_false, hcur, hao, hopen, if_true]⟩
        · refine Or.inr ⟨cfg, ps.pins, ps.opts.double_sided, ps.opts.via_outside,
            ps.opts.timestamp, hc, hf, ?_, ?_⟩
          · have ht : fopen_ok path = true := by simpa using hopen
            simp [main, e1, hp, hf, ho, ht]
          · have ht : fopen_ok path = true := by simpa using hopen
            simp [apw_main, e2, ha, hcur, hao, ht, r3, r4, r5]

theorem range_map_append (a : Int) (m n : Nat) :
    (List.range m).map (fun (k : Nat) => a + (k : Int)) ++
        (List.range n).map (fun (k : Nat) => a + (m : Int) + (k : Int))
      = (List.range (m + n)).map (fun (k : Nat) => a + (k : Int)) := by
  rw [List.range_add, List.map_append, List.map_map]
  congr 1
  apply List.map_congr_left
  intro k _
  simp only [Function.comp]
  push_cast
  ring

theorem log2_shift (k n : Nat) (h : 2 ^ k ≤ n) : Nat.log2 n = Nat.log2 (n / 2 ^ k) + k := by
  induction k generalizing n with
  | zero => simp
  | succ k ih =>
    have h2 : 2 ≤ n := le_trans (by
      calc 2 = 2 ^ 1 := by norm_num
        _ ≤ 2 ^ (k + 1) := Nat.pow_le_pow_right (by norm_num) (by omega)) h
    have hk : 2 ^ k ≤ n / 2 := by
      rw [Nat.le_div_iff_mul_le (by norm_num)]
      rw [pow_succ] at h
      exact h
    rw [Nat.log2, if_pos h2, ih _ hk, Nat.div_div_eq_div_mul, pow_succ, Nat.mul_comm 2]
    ring

theorem log2_fuel_eq (fuel n : Nat) (h : n ≤ fuel) : log2_fuel fuel n = Nat.log2 n := by
  induction fuel generalizing n with
  | zero =>
    have : n = 0 := by omega
    subst this
    rw [Nat.log2]
    simp [log2_fuel]
  | succ f ih =>
    have hd : ∀ k, 0 < k → 2 ^ k ≤ n → n / 2 ^ k ≤ f := by
      intro k hk hle
      have h1 : 2 ≤ 2 ^ k := by
        calc 2 = 2 ^ 1 := by norm_num
          _ ≤ 2 ^ k := Nat.pow_le_pow_right (by norm_num) hk
      have h3 : n / 2 ^ k ≤ n / 2 := Nat.div_le_div_left h1 (by norm_num)
      have h4 : 0 < n := lt_of_lt_of_le (by positivity) hle
      omega
    rw [log2_fuel]
    simp only [cond_eq_if, Nat.ble_eq]
    split_ifs with h1 h2 h3 h4
    · rw [ih _ (hd 64 (by norm_num) h1), ← log2_shift 64 n h1]
    · rw [ih _ (hd 16 (by norm_num) h2), ← log2_shift 16 n h2]
    · rw [ih _ (hd 4 (by norm_num) h3), ← log2_shift 4 n h3]
    · have h4b : 2 ^ 1 ≤ n := by simpa using h4
      have e := log2_shift 1 n h4b
      have i1 := ih _ (hd 1 (by norm_num) h4b)
      simp only [pow_one] at e i1
      rw [i1, e]
    · rw [Nat.log2, if_neg (by omega)]

theorem log2_fuel_bounds (n : Nat) (hn : 0 < n) :
    2 ^ log2_fuel n n ≤ n ∧ n < 2 ^ (log2_fuel n n + 1) := by
  rw [log2_fuel_eq n n le_rfl]
  exact ⟨Nat.log2_self_le (by omega), Nat.lt_log2_self⟩

theorem round_pos_f64_spec (n d : Nat) (hn : 0 < n) (hd : 0 < d) :
    ∃ (m : Nat) (e : Int), 2 ^ 52 ≤ m ∧ m ≤ 2 ^ 53 ∧
      round_pos_f64 n d = (m : ℚ) * 2 ^ e ∧
      (2 ^ 52 * 2 ^ e ≤ (n : ℚ) / d ∧ (n : ℚ) / d < 2 ^ 53 * 2 ^ e) ∧
      |round_pos_f64 n d - (n : ℚ) / d| ≤ 2 ^ e / 2 ∧
      (|round_pos_f64 n d - (n : ℚ) / d| = 2 ^ e / 2 → m % 2 = 0) := by
  obtain ⟨hn1, hn2⟩ := log2_fuel_bounds n hn
  obtain ⟨hd1, hd2⟩ := log2_fuel_bounds d hd
  simp only [round_pos_f64]
  generalize log2_fuel n n = ln at hn1 hn2 ⊢
  generalize log2_fuel d d = ld at hd1 hd2 ⊢
  have hN : n * 2 ^ (ld + 53) < 2 ^ 54 * (d * 2 ^ ln) := by
    calc n * 2 ^ (ld + 53) < 2 ^ (ln + 1) * 2 ^ (ld + 53) :=
          Nat.mul_lt_mul_of_pos_right hn2 (by positivity)
      _ = 2 ^ 54 * (2 ^ ld * 2 ^ ln) := by ring
      _ ≤ 2 ^ 54 * (d * 2 ^ ln) :=
          Nat.mul_le_mul_left _ (Nat.mul_le_mul_right _ hd1)
  have hN2 : 2 ^ 52 * (d * 2 ^ ln) ≤ n * 2 ^ (ld + 53) := by
    calc 2 ^ 52 * (d * 2 ^ ln) ≤ 2 ^ 52 * (2 ^ (ld + 1) * 2 ^ ln) :=
          Nat.mul_le_mul_left _ (Nat.mul_le_mul_right _ hd2.le)
      _ = 2 ^ ln * 2 ^ (ld + 53) := by ring
      _ ≤ n * 2 ^ (ld + 53) := Nat.mul_le_mul_right _ hn1
  obtain ⟨k, hk, hlo, hhi⟩ : ∃ k : Nat,
      (if 2 ^ 53 * (d * 2 ^ ln) ≤ n * 2 ^ (ld + 53) then 2 * (d * 2 ^ ln) else d * 2 ^ ln)
        = d * 2 ^ k ∧
      2 ^ 52 * (d * 2 ^ k) ≤ n * 2 ^ (ld + 53) ∧ n * 2 ^ (ld + 53) < 2 ^ 53 * (d * 2 ^ k) := by
    by_cases hc : 2 ^ 53 * (d * 2 ^ ln) ≤ n * 2 ^ (ld + 53)
    · refine ⟨ln + 1, ?_, ?_, ?_⟩
      · rw [if_pos hc]; ring
      · calc 2 ^ 52 * (d * 2 ^ (ln + 1)) = 2 ^ 53 * (d * 2 ^ ln) := by ring
          _ ≤ n * 2 ^ (ld + 53) := hc
      · calc n * 2 ^ (ld + 53) < 2 ^ 54 * (d * 2 ^ ln) := hN
          _ = 2 ^ 53 * (d * 2 ^ (ln + 1)) := by ring
    · refine ⟨ln, ?_, hN2, ?_⟩
      · rw [if_neg hc]
      · exact Nat.lt_of_not_le hc
  rw [hk]
  generalize hNdef : n * 2 ^ (ld + 53) = N at hlo hhi ⊢
  have hDpos : 0 < d * 2 ^ k := by positivity
  generalize hDdef : d * 2 ^ k = D at hlo hhi hDpos ⊢
  have hm1 : 2 ^ 52 ≤ N / D := (Nat.le_div_iff_mul_le hDpos).mpr hlo
  have hm2 : N / D < 2 ^ 53 := (Nat.div_lt_iff_lt_mul hDpos).mpr hhi
  have hr : N % D < D := Nat.mod_lt _ hDpos
  have hsplit : D * (N / D) + N % D = N := Nat.div_add_mod N D
  have hDd : D / d = 2 ^ k := by
    rw [← hDdef]
    exact Nat.mul_div_cancel_left _ hd
  rw [hDd, Rat.mkRat_eq_div]
  have hdq : (0 : ℚ) < d := by exact_mod_cast hd
  have hpq : (0 : ℚ) < 2 ^ (ld + 53) := by positivity
  have hkq : (0 : ℚ) < 2 ^ k := by positivity
  have he : (2 : ℚ) ^ ((k : Int) - ((ld + 53 : Nat) : Int)) = 2 ^ k / 2 ^ (ld + 53) := by
    rw [zpow_sub₀ (by norm_num : (2 : ℚ) ≠ 0), zpow_natCast, zpow_natCast]
  have hnd : (n : ℚ) / d = ((D : ℚ) * ((N / D : Nat) : ℚ) + ((N % D : Nat) : ℚ))
      / ((d : ℚ) * 2 ^ (ld + 53)) := by
    have e1 : ((D : ℚ) * ((N / D : Nat) : ℚ) + ((N % D : Nat) : ℚ)) = (N : ℚ) := by
      exact_mod_cast hsplit
    rw [e1, ← hNdef]
    push_cast
    field_simp
    ring
  have hDq : (D : ℚ) = (d : ℚ) * 2 ^ k := by
    rw [← hDdef]
    push_cast
    ring
  have hX : (0 : ℚ) < (d : ℚ) * 2 ^ (ld + 53) := by positivity
  have hbin : (2 : ℚ) ^ 52 * 2 ^ ((k : Int) - ((ld + 53 : Nat) : Int)) ≤ (n : ℚ) / d ∧
      (n : ℚ) / d < 2 ^ 53 * 2 ^ ((k : Int) - ((ld + 53 : Nat) : Int)) := by
    have hnN : (n : ℚ) / d = (N : ℚ) / ((d : ℚ) * 2 ^ (ld + 53)) := by
      rw [← hNdef]
      push_cast
      field_simp
      ring
    have e52 : (2 : ℚ) ^ 52 * 2 ^ ((k : Int) - ((ld + 53 : Nat) : Int))
        = ((2 ^ 52 * D : Nat) : ℚ) / ((d : ℚ) * 2 ^ (ld + 53)) := by
      rw [he]
      push_cast
      rw [hDq]
      field_simp
      ring
    have e53 : (2 : ℚ) ^ 53 * 2 ^ ((k : Int) - ((ld + 53 : Nat) : Int))
        = ((2 ^ 53 * D : Nat) : ℚ) / ((d : ℚ) * 2 ^ (ld + 53)) := by
      rw [he]
      push_cast
      rw [hDq]
      field_simp
      ring
    rw [hnN, e52, e53]
    exact ⟨div_le_div_of_nonneg_right (by exact_mod_cast hlo) hX.le,
      div_lt_div_of_pos_right (by exact_mod_cast hhi) hX⟩
  generalize N / D = m at hm1 hm2 hsplit hnd ⊢
  generalize N % D = r at hr hsplit hnd ⊢
  have key : ∀ m2 : Nat,
      ((((m2 * 2 ^ k : Nat) : Int) : ℚ) / ((2 ^ (ld + 53) : Nat) : ℚ)) - (n : ℚ) / d
        = (((m2 : ℚ) - m) * D - r) / ((d : ℚ) * 2 ^ (ld + 53)) := by
    intro m2
    rw [hnd, hDq]
    push_cast
    field_simp
    ring
  have hbound : (2 : ℚ) ^ ((k : Int) - ((ld + 53 : Nat) : Int)) / 2
      = ((D : ℚ) / 2) / ((d : ℚ) * 2 ^ (ld + 53)) := by
    rw [he, hDq]
    field_simp
    ring
  have hrq : ((r : ℚ)) < D := by exact_mod_cast hr
  have hr0 : (0 : ℚ) ≤ r := Nat.cast_nonneg r
  by_cases hup : D < 2 * r ∨ (2 * r = D ∧ m % 2 = 1)
  · rw [if_pos hup]
    refine ⟨m + 1, (k : Int) - ((ld + 53 : Nat) : Int), le_trans hm1 (Nat.le_succ m),
      Nat.succ_le_of_lt hm2, ?_, hbin, ?_, ?_⟩
    · rw [he]
      push_cast
      field_simp
    · rw [key, hbound, abs_div, abs_of_pos hX]
      apply div_le_div_of_nonneg_right _ hX.le
      have h2 : (D : ℚ) ≤ 2 * r := by
        rcases hup with h | ⟨h, _⟩
        · exact_mod_cast h.le
        · exact_mod_cast h.ge
      rw [abs_le]
      push_cast
      constructor <;> linarith
    · intro heq
      rw [key, hbound, abs_div, abs_of_pos hX] at heq
      have h3 := (div_left_inj' hX.ne').mp heq
      have h4 : (2 : ℚ) * r = D := by
        push_cast at h3
        have : ((m : ℚ) + 1 - m) * D - r = D - r := by ring
        rw [this, abs_of_pos (by linarith)] at h3
        linarith
      have h5 : 2 * r = D := by exact_mod_cast h4
      rcases hup with h | ⟨_, h⟩
      · omega
      · omega
  · rw [if_neg hup]
    have h2 : 2 * r ≤ D := by
      by_contra hcon
      exact hup (Or.inl (by omega))
    have h2q : (2 : ℚ) * r ≤ D := by exact_mod_cast h2
    refine ⟨m, (k : Int) - ((ld + 53 : Nat) : Int), hm1, hm2.le, ?_, hbin, ?_, ?_⟩
    · rw [he]
      push_cast
      field_simp
    · rw [key, hbound, abs_div, abs_of_pos hX]
      apply div_le_div_of_nonneg_right _ hX.le
      rw [abs_le]
      constructor <;> [skip; skip] <;> simp only [sub_self, zero_mul, zero_sub] <;> linarith
    · intro heq
      rw [key, hbound, abs_div, abs_of_pos hX] at heq
      have h3 := (div_left_inj' hX.ne').mp heq
      simp only [sub_self, zero_mul, zero_sub, abs_neg] at h3
      rw [abs_of_nonneg hr0] at h3
      have h4 : (2 : ℚ) * r = D := by linarith
      have h5 : 2 * r = D := by exact_mod_cast h4
      by_contra hodd
      exact hup (Or.inr ⟨h5, by omega⟩)

theorem round_f64_zero : round_f64 0 = 0 := by
  simp [round_f64]

theorem round_f64_spec (q : ℚ) (hq : q ≠ 0) :
    ∃ (m : Nat) (e : Int), 2 ^ 52 ≤ m ∧ m ≤ 2 ^ 53 ∧
      |round_f64 q| = (m : ℚ) * 2 ^ e ∧ (0 < round_f64 q ↔ 0 < q) ∧
      (2 ^ 52 * 2 ^ e ≤ |q| ∧ |q| < 2 ^ 53 * 2 ^ e) ∧
      |round_f64 q - q| ≤ 2 ^ e / 2 ∧
      (|round_f64 q - q| = 2 ^ e / 2 → m % 2 = 0) := by
  have hnum : q.num ≠ 0 := Rat.num_ne_zero.mpr hq
  have hn : 0 < q.num.natAbs := Int.natAbs_pos.mpr hnum
  obtain ⟨m, e, h1, h2, h3, hb, h4, h5⟩ :=
    round_pos_f64_spec q.num.natAbs q.den hn q.den_pos
  have hpos : 0 < round_pos_f64 q.num.natAbs q.den := by
    rw [h3]
    have : (0 : ℚ) < m := by
      have : 0 < m := lt_of_lt_of_le (by norm_num) h1
      exact_mod_cast this
    positivity
  have habs : ((q.num.natAbs : Nat) : ℚ) = |(q.num : ℚ)| := by
    rw [Nat.cast_natAbs, Int.cast_abs]
  rcases lt_or_gt_of_ne hnum with hneg | hgt
  · have hqneg : q < 0 := Rat.num_neg.mp hneg
    have hval : (q.num.natAbs : ℚ) / q.den = -q := by
      rw [habs, abs_of_neg (by exact_mod_cast hneg), neg_div, Rat.num_div_den]
    have hr : round_f64 q = -round_pos_f64 q.num.natAbs q.den := by
      simp only [round_f64, if_neg (not_lt.mpr hneg.le), if_pos hneg]
    rw [hval] at h4 h5 hb
    have hsub : round_f64 q - q = -(round_pos_f64 q.num.natAbs q.den - -q) := by
      rw [hr]
      ring
    refine ⟨m, e, h1, h2, ?_, ?_, ?_, ?_, ?_⟩
    · rw [hr, abs_neg, abs_of_pos hpos, h3]
    · rw [hr]
      constructor
      · intro h
        linarith
      · intro h
        linarith
    · rw [abs_of_neg hqneg]
      exact hb
    · rw [hsub, abs_neg]
      exact h4
    · rw [hsub, abs_neg]
      exact h5
  · have hqpos : 0 < q := Rat.num_pos.mp hgt
    have hval : (q.num.natAbs : ℚ) / q.den = q := by
      rw [habs, abs_of_pos (by exact_mod_cast hgt), Rat.num_div_den]
    have hr : round_f64 q = round_pos_f64 q.num.natAbs q.den := by
      simp only [round_f64, if_pos hgt]
    rw [hval] at h4 h5 hb
    refine ⟨m, e, h1, h2, ?_, ?_, ?_, ?_, ?_⟩
    · rw [hr, abs_of_pos hpos, h3]
    · rw [hr]
      exact ⟨fun _ => hqpos, fun _ => hpos⟩
    · rw [abs_of_pos hqpos]
      exact hb
    · rw [hr]
      exact h4
    · rw [hr]
      exact h5

theorem round_f64_values :
    round_f64 0.1 = 3602879701896397 / 2 ^ 55 ∧
      round_f64 1.27 = 2859785763380265 / 2 ^ 51 ∧
      round_f64 (1 / 3) = 6004799503160661 / 2 ^ 54 ∧
      round_f64 (2 ^ 53 + 1) = 2 ^ 53 ∧
      round_f64 (2 ^ 53 + 3) = 2 ^ 53 + 4 ∧
      round_f64 (-(2 ^ 54 + 2)) = -(2 ^ 54) ∧
      round_f64 (2 ^ 54 + 6) = 2 ^ 54 + 8 ∧
      round_f64 (1 / 2 ^ 100) = 1 / 2 ^ 100 ∧
      f64_add (round_f64 0.1) (round_f64 0.2) = round_f64 0.3 + 1 / 2 ^ 54 := by
  decide!

theorem emit_pad_f64_smd (opts : footprint_options_t) (h : opts.double_sided = 0) (i : Int)
    (px py sx sy : ℚ) :
    emit_pad_f64 opts i px py sx sy = emit_pad_f64 ⟨0, 0, ""⟩ i px py sx sy := by
  simp [emit_pad_f64, h]

theorem pad_loop_f64_smd (opts : footprint_options_t) (h : opts.double_sided = 0)
    (sx sy dx dy : ℚ) :
    ∀ (n : Nat) (i : Int) (px py : ℚ),
      pad_loop_f64 opts sx sy dx dy n i px py = pad_loop_f64 ⟨0, 0, ""⟩ sx sy dx dy n i px py := by
  intro n
  induction n with
  | zero => intro i px py; rfl
  | succ n ih =>
    intro i px py
    simp only [pad_loop_f64, ih, emit_pad_f64_smd opts h]

theorem calculate_pin_positions_f64_smd (spec : component_spec_t) (opts : footprint_options_t)
    (h : opts.double_sided = 0) :
    calculate_pin_positions_f64 spec opts = calculate_pin_positions_f64 spec ⟨0, 0, ""⟩ := by
  simp only [calculate_pin_positions_f64, pad_loop_f64_smd opts h]

theorem top_row_APW9324_f64 :
    ((calculate_pin_positions_f64 APW9324 ⟨0, 0, ""⟩).map
        (fun p => (p.number, p.position)))[0]? = some (1, ⟨0, -(67 / 8)⟩) ∧
      ((calculate_pin_positions_f64 APW9324 ⟨0, 0, ""⟩).map
        (fun p => (p.number, p.position)))[1]? = some (2, ⟨round_f64 1.27, -(67 / 8)⟩) ∧
      ((calculate_pin_positions_f64 APW9324 ⟨0, 0, ""⟩).map
        (fun p => (p.number, p.position)))[30]? = some (31, ⟨-(1 / 2 ^ 51), -(67 / 8)⟩) ∧
      ((calculate_pin_positions_f64 APW9324 ⟨0, 0, ""⟩).map
        (fun p => (p.number, p.position)))[31]?
        = some (32, ⟨round_f64 1.27 - 1 / 2 ^ 51, -(67 / 8)⟩) := by
  decide!

theorem mirror_f64 {spec : component_spec_t} (h : spec ∈ component_specs)
    (hsq : spec.pins_x = spec.pins_y) :
    ∀ p ∈ calculate_pin_positions_f64 spec ⟨0, 0, ""⟩,
      (∃ q ∈ calculate_pin_positions_f64 spec ⟨0, 0, ""⟩,
        q.number = (if p.number = 1 then 1 else spec.pins + 2 - p.number) ∧
        q.size = p.size ∧ |q.position.x + p.position.x| ≤ 1 / 10 ^ 14 ∧
          |q.position.y - p.position.y| ≤ 1 / 10 ^ 14) ∧
      (∃ q ∈ calculate_pin_positions_f64 spec ⟨0, 0, ""⟩,
        q.number = (if p.number ≤ 2 * spec.pins_x + 1 then 2 * spec.pins_x + 2 - p.number
          else 6 * spec.pins_x + 2 - p.number) ∧
        q.size = p.size ∧ |q.position.x - p.position.x| ≤ 1 / 10 ^ 14 ∧
          |q.position.y + p.position.y| ≤ 1 / 10 ^ 14) := by
  rcases mem_component_specs h with rfl | rfl | rfl | rfl | rfl | rfl | rfl
  · decide!
  · decide!
  · exact absurd hsq (by decide)
  · decide!
  · decide!
  · decide!
  · decide!

theorem pad_loop_checked_eq (opts : footprint_options_t) (sx sy dx dy : ℚ) :
    ∀ (n : Nat) (i : Int) (px py : ℚ) (pads : List pad_t),
      pads.length + n ≤ 128 → -2147483648 ≤ i + 1 → i + (n : Int) ≤ 2147483647 →
      pad_loop_checked opts sx sy dx dy n i px py pads
        = some (pads ++ pad_loop opts sx sy dx dy n i px py) := by
  intro n
  induction n with
  | zero =>
    intro i px py pads _ _ _
    simp [pad_loop_checked, pad_loop]
  | succ n ih =>
    intro i px py pads h1 h2 h3
    have c : pads.length < 128 ∧ int_range (i + 1) := by
      refine ⟨by omega, ?_, ?_⟩
      · exact h2
      · push_cast at h3
        omega
    rw [pad_loop_checked, if_pos c, ih (i + 1) (px + dx) (py + dy) _ (by
      rw [List.length_append, List.length_singleton]
      omega) (by omega) (by
      push_cast at h3
      omega)]
    simp [pad_loop]

theorem numbers_calculate_pin_positions (spec : component_spec_t) (opts : footprint_options_t)
    (hx : 0 ≤ spec.pins_x) (hy : 0 ≤ spec.pins_y) :
    (calculate_pin_positions spec opts).map pad_t.number
        = (List.range' 1
            (max spec.pins
              (1 + Int.tdiv spec.pins_x 2 + spec.pins_y + 2 * spec.pins_x)).toNat).map
            Int.ofNat ∧
      ((calculate_pin_positions spec opts).length : Int)
        = max spec.pins (1 + Int.tdiv spec.pins_x 2 + spec.pins_y + 2 * spec.pins_x) ∧
      (((calculate_pin_positions spec opts).length : Int) = spec.pins ↔
        1 + Int.tdiv spec.pins_x 2 + spec.pins_y + 2 * spec.pins_x ≤ spec.pins) := by
  have ht : 0 ≤ Int.tdiv spec.pins_x 2 := Int.tdiv_nonneg hx (by decide)
  generalize hN : (max spec.pins
    (1 + Int.tdiv spec.pins_x 2 + spec.pins_y + 2 * spec.pins_x)).toNat = N
  have hnum : (calculate_pin_positions spec opts).map pad_t.number
      = (List.range N).map (fun (k : Nat) => (1 : Int) + (k : Int)) := by
    simp only [calculate_pin_positions, pads_top1, pads_right, pads_bottom, pads_left,
      pads_top2, List.map_append, numbers_pad_loop]
    have e2 : cp2 spec = cp0 spec + (loop_count (cp0 spec) (cp1 spec) : Int) := by
      simp only [loop_count, cp0, cp1, cp2]; omega
    have e4 : cp4 spec = cp0 spec + ((loop_count (cp0 spec) (cp1 spec) +
        loop_count (cp2 spec) (cp3 spec) : Nat) : Int) := by
      simp only [loop_count, cp0, cp1, cp2, cp3, cp4]; omega
    have e6 : cp6 spec = cp0 spec + ((loop_count (cp0 spec) (cp1 spec) +
        loop_count (cp2 spec) (cp3 spec) + loop_count (cp4 spec) (cp5 spec) : Nat) : Int) := by
      simp only [loop_count, cp0, cp1, cp2, cp3, cp4, cp5, cp6]; omega
    have e8 : cp8 spec = cp0 spec + ((loop_count (cp0 spec) (cp1 spec) +
        loop_count (cp2 spec) (cp3 spec) + loop_count (cp4 spec) (cp5 spec) +
        loop_count (cp6 spec) (cp7 spec) : Nat) : Int) := by
      simp only [loop_count, cp0, cp1, cp2, cp3, cp4, cp5, cp6, cp7, cp8]; omega
    have eN : loop_count (cp0 spec) (cp1 spec) + loop_count (cp2 spec) (cp3 spec) +
        loop_count (cp4 spec) (cp5 spec) + loop_count (cp6 spec) (cp7 spec) +
        loop_count (cp8 spec) (cp9 spec) = N := by
      rw [← hN]
      simp only [loop_count, cp0, cp1, cp2, cp3, cp4, cp5, cp6, cp7, cp8, cp9]; omega
    generalize loop_count (cp0 spec) (cp1 spec) = c1 at e2 e4 e6 e8 eN ⊢
    generalize loop_count (cp2 spec) (cp3 spec) = c2 at e4 e6 e8 eN ⊢
    generalize loop_count (cp4 spec) (cp5 spec) = c3 at e6 e8 eN ⊢
    generalize loop_count (cp6 spec) (cp7 spec) = c4 at e8 eN ⊢
    generalize loop_count (cp8 spec) (cp9 spec) = c5 at eN ⊢
    rw [e2, range_map_append, e4, range_map_append, e6, range_map_append, e8,
      range_map_append, eN]
    rfl
  have hlen : (calculate_pin_positions spec opts).length = N := by
    have := congrArg List.length hnum
    simpa using this
  have hNint : (N : Int)
      = max spec.pins (1 + Int.tdiv spec.pins_x 2 + spec.pins_y + 2 * spec.pins_x) := by
    rw [← hN]
    omega
  refine ⟨?_, ?_, ?_⟩
  · rw [hnum, List.range'_eq_map_range, List.map_map]
    apply List.map_congr_left
    intro k _
    simp only [Function.comp]
    rfl
  · rw [hlen, hNint]
  · rw [hlen, hNint]
    omega

theorem calculate_pin_positions_checked_eq (spec : component_spec_t)
    (opts : footprint_options_t) (hx : 0 ≤ spec.pins_x) (hy : 0 ≤ spec.pins_y)
    (hp : -2147483648 ≤ spec.pins)
    (hN : max spec.pins (1 + Int.tdiv spec.pins_x 2 + spec.pins_y + 2 * spec.pins_x) ≤ 128) :
    calculate_pin_positions_checked spec opts = some (calculate_pin_positions spec opts) := by
  have ht : 0 ≤ Int.tdiv spec.pins_x 2 := Int.tdiv_nonneg hx (by decide)
  have hr : cp_in_range spec := by
    simp only [cp_in_range, int_range, cp0, cp1, cp2, cp3, cp4, cp5, cp6, cp7, cp8]
    omega
  unfold calculate_pin_positions_checked
  rw [if_pos hr]
  rw [pad_loop_checked_eq opts _ _ _ _ _ _ _ _ [] (by
      simp only [List.length_nil, loop_count, cp0, cp1]
      omega) (by
      simp only [cp0]
      omega) (by
      simp only [loop_count, cp0, cp1]
      omega)]
  simp only [Option.some_bind, List.nil_append]
  rw [pad_loop_checked_eq opts _ _ _ _ _ _ _ _ _ (by
      simp only [length_pad_loop, loop_count, cp0, cp1, cp2, cp3]
      omega) (by
      simp only [cp0, cp1, cp2]
      omega) (by
      simp only [loop_count, cp0, cp1, cp2, cp3]
      omega)]
  simp only [Option.some_bind]
  rw [pad_loop_checked_eq opts _ _ _ _ _ _ _ _ _ (by
      simp only [List.length_append, length_pad_loop, loop_count, cp0, cp1, cp2, cp3, cp4, cp5]
      omega) (by
      simp only [cp0, cp1, cp2, cp3, cp4]
      omega) (by
      simp only [loop_count, cp0, cp1, cp2, cp3, cp4, cp5]
      omega)]
  simp only [Option.some_bind]
  rw [pad_loop_checked_eq opts _ _ _ _ _ _ _ _ _ (by
      simp only [List.length_append, length_pad_loop, loop_count, cp0, cp1, cp2, cp3, cp4, cp5,
        cp6, cp7]
      omega) (by
      simp only [cp0, cp1, cp2, cp3, cp4, cp5, cp6]
      omega) (by
      simp only [loop_count, cp0, cp1, cp2, cp3, cp4, cp5, cp6, cp7]
      omega)]
  simp only [Option.some_bind]
  rw [pad_loop_checked_eq opts _ _ _ _ _ _ _ _ _ (by
      simp only [List.length_append, length_pad_loop, loop_count, cp0, cp1, cp2, cp3, cp4, cp5,
        cp6, cp7, cp8, cp9]
      omega) (by
      simp only [cp0, cp1, cp2, cp3, cp4, cp5, cp6, cp7, cp8]
      omega) (by
      simp only [loop_count, cp0, cp1, cp2, cp3, cp4, cp5, cp6, cp7, cp8, cp9]
      omega)]
  rfl

/-! ## Properties of the pad layout -/

/-- C1: for every catalog entry and every option combination,
`calculate_pin_positions` writes exactly `spec.pins` pads, and the k-th pad
written carries pin number k (k = 1..pins). -/
theorem C1_pad_numbers (spec : component_spec_t) (h : spec ∈ component_specs)
    (opts : footprint_options_t) :
    ((calculate_pin_positions spec opts).length : Int) = spec.pins ∧
      (calculate_pin_positions spec opts).map pad_t.number
        = (List.range' 1 spec.pins.toNat).map Int.ofNat := by
  have key : (calculate_pin_positions spec opts).map pad_t.number
      = (List.range' 1 spec.pins.toNat).map Int.ofNat := by
    rw [numbers_eq]
    rcases mem_component_specs h with rfl | rfl | rfl | rfl | rfl | rfl | rfl <;> decide
  refine ⟨?_, key⟩
  have hl := congrArg List.length key
  simp only [List.length_map, List.length_range'] at hl
  rw [hl]
  rcases mem_component_specs h with rfl | rfl | rfl | rfl | rfl | rfl | rfl <;> decide

/-- Witness for C1 at the 84-pin entry, double-sided with vias outside. -/
theorem C1_pad_numbers_witness :
    APW9328 ∈ component_specs ∧
      ((calculate_pin_positions APW9328 ⟨1, 1, ""⟩).length : Int) = 84 ∧
      (calculate_pin_positions APW9328 ⟨1, 1, ""⟩).map pad_t.number
        = (List.range' 1 84).map Int.ofNat :=
  ⟨by simp [component_specs], C1_pad_numbers APW9328 (by simp [component_specs]) ⟨1, 1, ""⟩⟩


/-- C2 (evaluation at the 32-pin entry): in the single-sided layout of APW9324
the pads with the left-edge position `x = -(A - pad_length)/2` and size
`pad_length x pad_width` are exactly pins 21..27, seven pads, although
`pins_y = 9`; the right edge does carry nine pads (pins 5..13); and the pads that
the left edge lacks are written on the top edge, where pin 31 lands on the
position of pin 1 and pin 32 on the position of pin 2. -/
theorem C2_left_edge_APW9324 :
    ((calculate_pin_positions APW9324 ⟨0, 1, ""⟩).filter
        (fun p => decide (p.position.x = -(APW9324.body.a - pad_length APW9324) / 2 ∧
          p.size = ⟨pad_length APW9324, APW9324.pad_width⟩))).map pad_t.number
      = [21, 22, 23, 24, 25, 26, 27] ∧
    ((calculate_pin_positions APW9324 ⟨0, 1, ""⟩).filter
        (fun p => decide (p.position.x = (APW9324.body.a - pad_length APW9324) / 2 ∧
          p.size = ⟨pad_length APW9324, APW9324.pad_width⟩))).map pad_t.number
      = [5, 6, 7, 8, 9, 10, 11, 12, 13] ∧
    ((calculate_pin_positions APW9324 ⟨0, 1, ""⟩).filter
        (fun p => decide (p.position
          = ⟨0, -(APW9324.body.c - pad_length APW9324) / 2⟩))).map pad_t.number
      = [1, 31] ∧
    ((calculate_pin_positions APW9324 ⟨0, 1, ""⟩).filter
        (fun p => decide (p.position
          = ⟨APW9324.pitch, -(APW9324.body.c - pad_length APW9324) / 2⟩))).map pad_t.number
      = [2, 32] ∧
    APW9324.pins_y = 9 ∧ APW9324 ∈ component_specs := by
  have hc : loop_count (cp0 APW9324) (cp1 APW9324) = 4 ∧
      loop_count (cp2 APW9324) (cp3 APW9324) = 9 ∧
      loop_count (cp4 APW9324) (cp5 APW9324) = 7 ∧
      loop_count (cp6 APW9324) (cp7 APW9324) = 7 ∧
      loop_count (cp8 APW9324) (cp9 APW9324) = 5 := by decide
  have hn : cp0 APW9324 = 1 ∧ cp2 APW9324 = 5 ∧ cp4 APW9324 = 14 ∧ cp6 APW9324 = 21 ∧
      cp8 APW9324 = 28 := by decide
  obtain ⟨h1, h2, h3, h4, h5⟩ := hc
  obtain ⟨n1, n2, n3, n4, n5⟩ := hn
  have hl : calculate_pin_positions APW9324 ⟨0, 1, ""⟩
      = (pin_slots APW9324).map (place ⟨0, 1, ""⟩) := calculate_pin_positions_eq_map _ _
  simp only [pin_slots, h1, h2, h3, h4, h5, n1, n2, n3, n4, n5, slot_loop, List.map,
    List.cons_append, List.nil_append, place_smd] at hl
  rw [hl]
  refine ⟨?_, ?_, ?_, ?_, by decide, by simp [component_specs]⟩ <;>
    norm_num [APW9324, pad_length, pins_height, pins_width, List.filter_cons]

/-- C3 (as stated, refuted at the 84-pin entry): the five loops do not write
`pins_x/2`, `pins_y - 1`, `pins_x - 1`, `pins_y - 1` pads and the remainder;
the first loop already writes 11 pads where `pins_x/2 = 10`. -/
theorem C3_group_sizes_counterexample :
    ¬ (((pads_top1 APW9328 ⟨1, 1, ""⟩).length : Int) = Int.tdiv APW9328.pins_x 2 ∧
        ((pads_right APW9328 ⟨1, 1, ""⟩).length : Int) = APW9328.pins_y - 1 ∧
        ((pads_bottom APW9328 ⟨1, 1, ""⟩).length : Int) = APW9328.pins_x - 1 ∧
        ((pads_left APW9328 ⟨1, 1, ""⟩).length : Int) = APW9328.pins_y - 1 ∧
        (pads_top1 APW9328 ⟨1, 1, ""⟩).map pad_t.number
          = (List.range' 1 (Int.tdiv APW9328.pins_x 2).toNat).map Int.ofNat) := by
  rintro ⟨h, -⟩
  rw [(length_groups APW9328 ⟨1, 1, ""⟩).1] at h
  revert h
  decide

/-- C3 (amended): for every catalog entry the first loop writes exactly pins
`1..pins_x/2 + 1`, the right-edge loop writes `pins_y` pads, the bottom-edge
loop `pins_x` pads, the left-edge loop `pins_y` pads on every entry with
`pins_x = pins_y`, and the five loops together write `pins` pads. -/
theorem C3_group_sizes (spec : component_spec_t) (h : spec ∈ component_specs)
    (opts : footprint_options_t) :
    (pads_top1 spec opts).map pad_t.number
        = (List.range' 1 (Int.tdiv spec.pins_x 2 + 1).toNat).map Int.ofNat ∧
      ((pads_top1 spec opts).length : Int) = Int.tdiv spec.pins_x 2 + 1 ∧
      ((pads_right spec opts).length : Int) = spec.pins_y ∧
      ((pads_bottom spec opts).length : Int) = spec.pins_x ∧
      (spec.pins_x = spec.pins_y → ((pads_left spec opts).length : Int) = spec.pins_y) ∧
      (((pads_top1 spec opts).length + (pads_right spec opts).length +
          (pads_bottom spec opts).length + (pads_left spec opts).length +
          (pads_top2 spec opts).length : Nat) : Int) = spec.pins := by
  obtain ⟨l1, l2, l3, l4, l5⟩ := length_groups spec opts
  rw [l1, l2, l3, l4, l5]
  refine ⟨?_, ?_⟩
  · unfold pads_top1
    rw [numbers_pad_loop]
    rcases mem_component_specs h with rfl | rfl | rfl | rfl | rfl | rfl | rfl <;> decide
  · rcases mem_component_specs h with rfl | rfl | rfl | rfl | rfl | rfl | rfl <;> decide

/-- Witness for C3 (amended) at the 84-pin entry. -/
theorem C3_group_sizes_witness :
    APW9328 ∈ component_specs ∧
      (pads_top1 APW9328 ⟨1, 1, ""⟩).map pad_t.number
        = (List.range' 1 (Int.tdiv APW9328.pins_x 2 + 1).toNat).map Int.ofNat ∧
      ((pads_top1 APW9328 ⟨1, 1, ""⟩).length : Int) = Int.tdiv APW9328.pins_x 2 + 1 ∧
      ((pads_right APW9328 ⟨1, 1, ""⟩).length : Int) = APW9328.pins_y ∧
      ((pads_bottom APW9328 ⟨1, 1, ""⟩).length : Int) = APW9328.pins_x ∧
      (APW9328.pins_x = APW9328.pins_y →
        ((pads_left APW9328 ⟨1, 1, ""⟩).length : Int) = APW9328.pins_y) ∧
      (((pads_top1 APW9328 ⟨1, 1, ""⟩).length + (pads_right APW9328 ⟨1, 1, ""⟩).length +
          (pads_bottom APW9328 ⟨1, 1, ""⟩).length + (pads_left APW9328 ⟨1, 1, ""⟩).length +
          (pads_top2 APW9328 ⟨1, 1, ""⟩).length : Nat) : Int) = APW9328.pins :=
  ⟨by simp [component_specs], C3_group_sizes APW9328 (by simp [component_specs]) ⟨1, 1, ""⟩⟩


/-- C4: in the single-sided layout of the 84-pin entry the pins are 1..84 and
pins 75..84 and 1..11 lie on the top edge `y = -(C - pad_length)/2`, pins 12..32
on the right edge `x = (A - pad_length)/2`, pins 33..53 on the bottom edge
`y = (C - pad_length)/2`, pins 54..74 on the left edge `x = -(A - pad_length)/2`,
and pin 1 is at `x = 0`. -/
theorem C4_pin_edges_84 (opts : footprint_options_t) (h : opts.double_sided = 0) :
    (calculate_pin_positions APW9328 opts).map pad_t.number
        = (List.range' 1 84).map Int.ofNat ∧
      ∀ p ∈ calculate_pin_positions APW9328 opts,
        ((75 ≤ p.number ∧ p.number ≤ 84) ∨ (1 ≤ p.number ∧ p.number ≤ 11) →
            p.position.y = -(APW9328.body.c - pad_length APW9328) / 2) ∧
          (12 ≤ p.number ∧ p.number ≤ 32 →
            p.position.x = (APW9328.body.a - pad_length APW9328) / 2) ∧
          (33 ≤ p.number ∧ p.number ≤ 53 →
            p.position.y = (APW9328.body.c - pad_length APW9328) / 2) ∧
          (54 ≤ p.number ∧ p.number ≤ 74 →
            p.position.x = -(APW9328.body.a - pad_length APW9328) / 2) ∧
          (p.number = 1 → p.position.x = 0) := by
  have hc : loop_count (cp0 APW9328) (cp1 APW9328) = 11 ∧
      loop_count (cp2 APW9328) (cp3 APW9328) = 21 ∧
      loop_count (cp4 APW9328) (cp5 APW9328) = 21 ∧
      loop_count (cp6 APW9328) (cp7 APW9328) = 21 ∧
      loop_count (cp8 APW9328) (cp9 APW9328) = 10 := by decide
  have hn : cp0 APW9328 = 1 ∧ cp2 APW9328 = 12 ∧ cp4 APW9328 = 33 ∧ cp6 APW9328 = 54 ∧
      cp8 APW9328 = 75 := by decide
  obtain ⟨h1, h2, h3, h4, h5⟩ := hc
  obtain ⟨n1, n2, n3, n4, n5⟩ := hn
  refine ⟨?_, ?_⟩
  · rw [numbers_eq]; decide
  · intro p hp
    simp only [calculate_pin_positions, List.mem_append] at hp
    rcases hp with (((hp | hp) | hp) | hp) | hp
    · simp only [pads_top1, mem_pad_loop] at hp
      rw [h1, n1] at hp
      obtain ⟨k, hk, rfl⟩ := hp
      simp only [emit_pad_smd opts h]
      refine ⟨fun _ => by ring, fun _ => by omega, fun _ => by omega, fun _ => by omega, ?_⟩
      intro h1
      have hk0 : k = 0 := by omega
      subst hk0
      simp
    · simp only [pads_right, mem_pad_loop] at hp
      rw [h2, n2] at hp
      obtain ⟨k, hk, rfl⟩ := hp
      simp only [emit_pad_smd opts h]
      refine ⟨fun _ => by omega, fun _ => by ring, fun _ => by omega, fun _ => by omega,
        fun _ => by omega⟩
    · simp only [pads_bottom, mem_pad_loop] at hp
      rw [h3, n3] at hp
      obtain ⟨k, hk, rfl⟩ := hp
      simp only [emit_pad_smd opts h]
      refine ⟨fun _ => by omega, fun _ => by omega, fun _ => by ring, fun _ => by omega,
        fun _ => by omega⟩
    · simp only [pads_left, mem_pad_loop] at hp
      rw [h4, n4] at hp
      obtain ⟨k, hk, rfl⟩ := hp
      simp only [emit_pad_smd opts h]
      refine ⟨fun _ => by omega, fun _ => by omega, fun _ => by omega, fun _ => by ring,
        fun _ => by omega⟩
    · simp only [pads_top2, mem_pad_loop] at hp
      rw [h5, n5] at hp
      obtain ⟨k, hk, rfl⟩ := hp
      simp only [emit_pad_smd opts h]
      refine ⟨fun _ => by ring, fun _ => by omega, fun _ => by omega, fun _ => by omega,
        fun _ => by omega⟩

/-- Witness for C4 with the single-sided options `double_sided = 0`,
`via_outside = 1`. -/
theorem C4_pin_edges_84_witness :
    (⟨0, 1, ""⟩ : footprint_options_t).double_sided = 0 ∧
      ((calculate_pin_positions APW9328 ⟨0, 1, ""⟩).map pad_t.number
          = (List.range' 1 84).map Int.ofNat ∧
        ∀ p ∈ calculate_pin_positions APW9328 ⟨0, 1, ""⟩,
          ((75 ≤ p.number ∧ p.number ≤ 84) ∨ (1 ≤ p.number ∧ p.number ≤ 11) →
              p.position.y = -(APW9328.body.c - pad_length APW9328) / 2) ∧
            (12 ≤ p.number ∧ p.number ≤ 32 →
              p.position.x = (APW9328.body.a - pad_length APW9328) / 2) ∧
            (33 ≤ p.number ∧ p.number ≤ 53 →
              p.position.y = (APW9328.body.c - pad_length APW9328) / 2) ∧
            (54 ≤ p.number ∧ p.number ≤ 74 →
              p.position.x = -(APW9328.body.a - pad_length APW9328) / 2) ∧
            (p.number = 1 → p.position.x = 0)) :=
  ⟨rfl, C4_pin_edges_84 ⟨0, 1, ""⟩ rfl⟩

/-- C5: in single-sided mode, for every spec: every pad of the two top loops has
`y = -(C - pad_length)/2` and size `(pad_width, pad_length)`; when
`0 ≤ pins_x` the first pad written is pin 1 at `x = 0`; inside each loop the
next pad has the next pin number and lies exactly one pitch further along the
walk direction (+X top, +Y right, -X bottom, -Y left) with the other coordinate
unchanged; and that other coordinate is the edge value of the loop. -/
theorem C5_single_sided_walk (spec : component_spec_t) (opts : footprint_options_t)
    (h : opts.double_sided = 0) :
    (∀ p ∈ pads_top1 spec opts ++ pads_top2 spec opts,
        p.position.y = -(spec.body.c - pad_length spec) / 2 ∧
          p.size = ⟨spec.pad_width, pad_length spec⟩) ∧
      (0 ≤ spec.pins_x →
        ∃ p, (calculate_pin_positions spec opts).head? = some p ∧ p.number = 1 ∧
          p.position.x = 0) ∧
      List.Chain' (fun p q : pad_t => q.number = p.number + 1 ∧
          q.position.x = p.position.x + spec.pitch ∧ q.position.y = p.position.y)
        (pads_top1 spec opts) ∧
      List.Chain' (fun p q : pad_t => q.number = p.number + 1 ∧
          q.position.y = p.position.y + spec.pitch ∧ q.position.x = p.position.x)
        (pads_right spec opts) ∧
      List.Chain' (fun p q : pad_t => q.number = p.number + 1 ∧
          q.position.x = p.position.x - spec.pitch ∧ q.position.y = p.position.y)
        (pads_bottom spec opts) ∧
      List.Chain' (fun p q : pad_t => q.number = p.number + 1 ∧
          q.position.y = p.position.y - spec.pitch ∧ q.position.x = p.position.x)
        (pads_left spec opts) ∧
      List.Chain' (fun p q : pad_t => q.number = p.number + 1 ∧
          q.position.x = p.position.x + spec.pitch ∧ q.position.y = p.position.y)
        (pads_top2 spec opts) ∧
      (∀ p ∈ pads_right spec opts,
        p.position.x = (spec.body.a - pad_length spec) / 2) ∧
      (∀ p ∈ pads_bottom spec opts,
        p.position.y = (spec.body.c - pad_length spec) / 2) ∧
      (∀ p ∈ pads_left spec opts,
        p.position.x = -(spec.body.a - pad_length spec) / 2) := by
  refine ⟨?_, ?_, ?_, ?_, ?_, ?_, ?_, ?_, ?_, ?_⟩
  · intro p hp
    simp only [List.mem_append, pads_top1, pads_top2, mem_pad_loop] at hp
    rcases hp with ⟨k, _, rfl⟩ | ⟨k, _, rfl⟩ <;> simp [emit_pad_smd opts h]
  · intro hx
    have hpos : 0 < loop_count (cp0 spec) (cp1 spec) := by
      have : 0 ≤ Int.tdiv spec.pins_x 2 := Int.tdiv_nonneg hx (by decide)
      simp only [loop_count, cp0, cp1]
      omega
    obtain ⟨m, hm⟩ := Nat.exists_eq_succ_of_ne_zero (Nat.pos_iff_ne_zero.mp hpos)
    refine ⟨emit_pad opts (cp0 spec) 0 (-(spec.body.c - pad_length spec) / 2)
      spec.pad_width (pad_length spec), ?_, ?_, ?_⟩
    · simp [calculate_pin_positions, pads_top1, hm, pad_loop]
    · simp [emit_pad_number, cp0]
    · simp [emit_pad_smd opts h]
  · exact List.Chain'.imp (fun _ _ hpq => by simpa using hpq)
      (chain_pad_loop_smd opts h _ _ _ _ _ _ _ _)
  · exact List.Chain'.imp (fun _ _ hpq => ⟨hpq.1, hpq.2.2, by simpa using hpq.2.1⟩)
      (chain_pad_loop_smd opts h _ _ _ _ _ _ _ _)
  · exact List.Chain'.imp
      (fun _ _ hpq => ⟨hpq.1, by rw [hpq.2.1]; ring, by simpa using hpq.2.2⟩)
      (chain_pad_loop_smd opts h _ _ _ _ _ _ _ _)
  · exact List.Chain'.imp
      (fun _ _ hpq => ⟨hpq.1, by rw [hpq.2.2]; ring, by simpa using hpq.2.1⟩)
      (chain_pad_loop_smd opts h _ _ _ _ _ _ _ _)
  · exact List.Chain'.imp (fun _ _ hpq => by simpa using hpq)
      (chain_pad_loop_smd opts h _ _ _ _ _ _ _ _)
  · intro p hp
    simp only [pads_right, mem_pad_loop] at hp
    obtain ⟨k, _, rfl⟩ := hp
    simp [emit_pad_smd opts h]
  · intro p hp
    simp only [pads_bottom, mem_pad_loop] at hp
    obtain ⟨k, _, rfl⟩ := hp
    simp [emit_pad_smd opts h]
  · intro p hp
    simp only [pads_left, mem_pad_loop] at hp
    obtain ⟨k, _, rfl⟩ := hp
    simp [emit_pad_smd opts h]


/-- Witness for C5 at the 84-pin entry, single-sided. -/
theorem C5_single_sided_walk_witness :
    (⟨0, 1, ""⟩ : footprint_options_t).double_sided = 0 ∧
      ∃ p, (calculate_pin_positions APW9328 ⟨0, 1, ""⟩).head? = some p ∧ p.number = 1 ∧
        p.position.x = 0 :=
  ⟨rfl, (C5_single_sided_walk APW9328 ⟨0, 1, ""⟩ rfl).2.1 (by decide)⟩


/-- C7: in double-sided mode with `via_outside` set, for every catalog entry and
every pad (paired with the single-sided pad of the same index, which carries
the nominal position): the two size dimensions differ, the drill offset is zero
along the shorter one, its magnitude along the longer one is that dimension
divided by four, and its sign there is opposite to the sign of the nominal
coordinate. -/
theorem C7_drill_offset_inward (spec : component_spec_t) (h : spec ∈ component_specs)
    (od os : footprint_options_t) (hd : od.double_sided ≠ 0) (hv : od.via_outside ≠ 0)
    (hs : os.double_sided = 0) :
    List.Forall₂
      (fun p n : pad_t =>
        (p.size.y < p.size.x ∧ p.drill.offset.y = 0 ∧ |p.drill.offset.x| = p.size.x / 4 ∧
            p.drill.offset.x * n.position.x < 0) ∨
          (p.size.x < p.size.y ∧ p.drill.offset.x = 0 ∧ |p.drill.offset.y| = p.size.y / 4 ∧
            p.drill.offset.y * n.position.y < 0))
      (calculate_pin_positions spec od) (calculate_pin_positions spec os) := by
  obtain ⟨hw, hwl, hlc, hla⟩ := catalog_dims h
  rw [calculate_pin_positions_eq_map, calculate_pin_positions_eq_map,
    List.forall₂_map_left_iff, List.forall₂_map_right_iff, List.forall₂_same]
  intro s hmem
  have hl : 0 < pad_length spec := lt_trans hw hwl
  simp only [place, emit_pad_th od hd, emit_pad_smd os hs, if_neg hv]
  rcases slot_shape spec s hmem with ⟨hx, hy, hp | hp⟩ | ⟨hx, hy, hp | hp⟩
  · right
    have hneg : s.py < 0 := by rw [hp]; linarith
    have hle : s.sx ≤ s.sy := by rw [hx, hy]; exact le_of_lt hwl
    have hsy : 0 < s.sy := by rw [hy]; exact hl
    rw [if_neg (not_lt.mpr hle), if_pos hle, if_pos hneg]
    refine ⟨by rw [hx, hy]; exact hwl, rfl, abs_of_pos (by linarith), ?_⟩
    exact mul_neg_of_pos_of_neg (by linarith) hneg
  · right
    have hpos : 0 < s.py := by rw [hp]; linarith
    have hle : s.sx ≤ s.sy := by rw [hx, hy]; exact le_of_lt hwl
    have hsy : 0 < s.sy := by rw [hy]; exact hl
    rw [if_neg (not_lt.mpr hle), if_pos hle, if_neg (not_lt.mpr (le_of_lt hpos))]
    refine ⟨by rw [hx, hy]; exact hwl, rfl, ?_, ?_⟩
    · rw [abs_of_neg (by linarith)]; ring
    · exact mul_neg_of_neg_of_pos (by linarith) hpos
  · left
    have hpos : 0 < s.px := by rw [hp]; linarith
    have hgt : s.sx > s.sy := by rw [hx, hy]; exact hwl
    have hsx : 0 < s.sx := by rw [hx]; exact hl
    rw [if_pos hgt, if_neg (not_le.mpr hgt), if_neg (not_lt.mpr (le_of_lt hpos))]
    refine ⟨hgt, rfl, ?_, ?_⟩
    · rw [abs_of_neg (by linarith)]; ring
    · exact mul_neg_of_neg_of_pos (by linarith) hpos
  · left
    have hneg : s.px < 0 := by rw [hp]; linarith
    have hgt : s.sx > s.sy := by rw [hx, hy]; exact hwl
    have hsx : 0 < s.sx := by rw [hx]; exact hl
    rw [if_pos hgt, if_neg (not_le.mpr hgt), if_pos hneg]
    refine ⟨hgt, rfl, abs_of_pos (by linarith), ?_⟩
    exact mul_neg_of_pos_of_neg (by linarith) hneg


/-- Witness for C7 at the 32-pin entry. -/
theorem C7_drill_offset_inward_witness :
    APW9324 ∈ component_specs ∧ (⟨1, 1, ""⟩ : footprint_options_t).double_sided ≠ 0 ∧
      (⟨1, 1, ""⟩ : footprint_options_t).via_outside ≠ 0 ∧
      (⟨0, 1, ""⟩ : footprint_options_t).double_sided = 0 ∧
      List.Forall₂
        (fun p n : pad_t =>
          (p.size.y < p.size.x ∧ p.drill.offset.y = 0 ∧ |p.drill.offset.x| = p.size.x / 4 ∧
              p.drill.offset.x * n.position.x < 0) ∨
            (p.size.x < p.size.y ∧ p.drill.offset.x = 0 ∧
              |p.drill.offset.y| = p.size.y / 4 ∧ p.drill.offset.y * n.position.y < 0))
        (calculate_pin_positions APW9324 ⟨1, 1, ""⟩)
        (calculate_pin_positions APW9324 ⟨0, 1, ""⟩) :=
  ⟨by simp [component_specs], by decide, by decide, rfl,
    C7_drill_offset_inward APW9324 (by simp [component_specs]) ⟨1, 1, ""⟩ ⟨0, 1, ""⟩
      (by decide) (by decide) rfl⟩

/-- C8: for every spec, the double-sided layouts with `via_outside` set (`oo`)
and cleared (`oi`) and the single-sided layout (`os`, the nominal positions)
have the same length, and at every index the two drill offsets are negations of
each other on both axes, sizes and pin numbers agree, and the two drawn
positions add up to twice the nominal position. -/
theorem C8_via_toggle (spec : component_spec_t) (oo oi os : footprint_options_t)
    (hoo : oo.double_sided ≠ 0) (hov : oo.via_outside ≠ 0)
    (hio : oi.double_sided ≠ 0) (hiv : oi.via_outside = 0) (hs : os.double_sided = 0) :
    (calculate_pin_positions spec oo).length = (calculate_pin_positions spec oi).length ∧
      (calculate_pin_positions spec oo).length = (calculate_pin_positions spec os).length ∧
      ∀ (k : Nat) (p q n : pad_t),
        (calculate_pin_positions spec oo)[k]? = some p →
        (calculate_pin_positions spec oi)[k]? = some q →
        (calculate_pin_positions spec os)[k]? = some n →
          q.drill.offset.x = -p.drill.offset.x ∧ q.drill.offset.y = -p.drill.offset.y ∧
            q.size = p.size ∧ q.number = p.number ∧ n.number = p.number ∧
            p.position.x + q.position.x = 2 * n.position.x ∧
            p.position.y + q.position.y = 2 * n.position.y := by
  refine ⟨by simp [calculate_pin_positions_eq_map], by simp [calculate_pin_positions_eq_map], ?_⟩
  intro k p q n hp hq hn
  obtain ⟨s, hs1, rfl⟩ := (getElem?_calculate_pin_positions spec oo k p).mp hp
  obtain ⟨s2, hs2, rfl⟩ := (getElem?_calculate_pin_positions spec oi k q).mp hq
  obtain ⟨s3, hs3, rfl⟩ := (getElem?_calculate_pin_positions spec os k n).mp hn
  have e2 : s2 = s := Option.some.inj (hs2.symm.trans hs1)
  have e3 : s3 = s := Option.some.inj (hs3.symm.trans hs1)
  subst e2 e3
  simp only [place, emit_pad_th oo hoo, emit_pad_th oi hio, emit_pad_smd os hs, if_neg hov,
    if_pos hiv]
  refine ⟨by ring, by ring, trivial, trivial, trivial, by ring, by ring⟩

/-- Witness for C8 at the 84-pin entry. -/
theorem C8_via_toggle_witness :
    (⟨1, 1, ""⟩ : footprint_options_t).double_sided ≠ 0 ∧
      (⟨1, 1, ""⟩ : footprint_options_t).via_outside ≠ 0 ∧
      (⟨1, 0, ""⟩ : footprint_options_t).double_sided ≠ 0 ∧
      (⟨1, 0, ""⟩ : footprint_options_t).via_outside = 0 ∧
      (⟨0, 1, ""⟩ : footprint_options_t).double_sided = 0 ∧
      (calculate_pin_positions APW9328 ⟨1, 1, ""⟩).length
        = (calculate_pin_positions APW9328 ⟨1, 0, ""⟩).length :=
  ⟨by decide, by decide, by decide, rfl, rfl,
    (C8_via_toggle APW9328 ⟨1, 1, ""⟩ ⟨1, 0, ""⟩ ⟨0, 1, ""⟩ (by decide) (by decide) (by decide)
      rfl rfl).1⟩

/-- C9: for every spec, with `double_sided` cleared (`os`, either `via_outside`
value) the layout is, slot by slot, a surface-mount pad at the nominal loop
position with the zero (`calloc`) drill record and the layer string
`"F.Cu" "F.Paste" "F.Mask"`; with `double_sided` set (`od`) every pad is a
plated through hole with the layer string `"*.Cu" "*.Mask"`. -/
theorem C9_pad_kinds (spec : component_spec_t) (os od : footprint_options_t)
    (hs : os.double_sided = 0) (hd : od.double_sided ≠ 0) :
    calculate_pin_positions spec os
        = (pin_slots spec).map (fun s =>
            { number := s.i
              position := ⟨s.px, s.py⟩
              size := ⟨s.sx, s.sy⟩
              type := pad_type_t.PAD_SMD
              drill := ⟨0, ⟨0, 0⟩⟩
              layers := "\"F.Cu\" \"F.Paste\" \"F.Mask\"" }) ∧
      (∀ p ∈ calculate_pin_positions spec os,
        p.type = pad_type_t.PAD_SMD ∧ p.drill = ⟨0, ⟨0, 0⟩⟩ ∧
          p.layers = "\"F.Cu\" \"F.Paste\" \"F.Mask\"") ∧
      (∀ p ∈ calculate_pin_positions spec od,
        p.type = pad_type_t.PAD_THROUGHHOLE ∧ p.layers = "\"*.Cu\" \"*.Mask\"") := by
  refine ⟨?_, ?_, ?_⟩
  · rw [calculate_pin_positions_eq_map]
    apply List.map_congr_left
    intro s _
    exact place_smd os hs s
  · intro p hp
    obtain ⟨s, _, rfl⟩ := (mem_calculate_pin_positions spec os p).mp hp
    rw [place_smd os hs]
    exact ⟨rfl, rfl, rfl⟩
  · intro p hp
    obtain ⟨s, _, rfl⟩ := (mem_calculate_pin_positions spec od p).mp hp
    rw [place, emit_pad_th od hd]
    exact ⟨rfl, rfl⟩

/-- Witness for C9 at the 84-pin entry. -/
theorem C9_pad_kinds_witness :
    (⟨0, 1, ""⟩ : footprint_options_t).double_sided = 0 ∧
      (⟨1, 1, ""⟩ : footprint_options_t).double_sided ≠ 0 ∧
      (∀ p ∈ calculate_pin_positions APW9328 ⟨0, 1, ""⟩,
        p.type = pad_type_t.PAD_SMD ∧ p.drill = ⟨0, ⟨0, 0⟩⟩ ∧
          p.layers = "\"F.Cu\" \"F.Paste\" \"F.Mask\"") :=
  ⟨rfl, by decide, (C9_pad_kinds APW9328 ⟨0, 1, ""⟩ ⟨1, 1, ""⟩ rfl (by decide)).2.1⟩

/-- C10: for every catalog entry and every option combination, every pad has
`size.x * size.y > 0`, and every plated-through-hole pad has drill diameter
exactly 0.3. -/
theorem C10_size_and_drill (spec : component_spec_t) (h : spec ∈ component_specs)
    (opts : footprint_options_t) :
    ∀ p ∈ calculate_pin_positions spec opts,
      0 < p.size.x * p.size.y ∧
        (p.type = pad_type_t.PAD_THROUGHHOLE → p.drill.diameter = 0.3) := by
  obtain ⟨hw, hwl, -, -⟩ := catalog_dims h
  have hl : 0 < pad_length spec := lt_trans hw hwl
  intro p hp
  obtain ⟨s, hmem, rfl⟩ := (mem_calculate_pin_positions spec opts p).mp hp
  refine ⟨?_, ?_⟩
  · rw [place, emit_pad_size]
    rcases slot_shape spec s hmem with ⟨hx, hy, -⟩ | ⟨hx, hy, -⟩ <;>
      · simp only [hx, hy]
        positivity
  · by_cases h0 : opts.double_sided = 0
    · rw [place_smd opts h0]
      intro hc
      cases hc
    · intro _
      rw [place, emit_pad_th opts h0]

/-- Witness for C10 at the 20-pin entry, double-sided with vias inside. -/
theorem C10_size_and_drill_witness :
    APW9322 ∈ component_specs ∧
      ∀ p ∈ calculate_pin_positions APW9322 ⟨1, 0, ""⟩,
        0 < p.size.x * p.size.y ∧
          (p.type = pad_type_t.PAD_THROUGHHOLE → p.drill.diameter = 0.3) :=
  ⟨by simp [component_specs], C10_size_and_drill APW9322 (by simp [component_specs]) ⟨1, 0, ""⟩⟩


/-! ## Properties of the catalog, the outlines and the text anchors -/

/-- C11 (as stated, refuted): the 20-pin entry does not have `C = 8.70`,
`pad_length = 0` and pad 1 at `(0, -4.35)`. -/
theorem C11_apw9322_counterexample :
    ¬ (APW9322.body.c = 8.70 ∧ APW9322.body.d = 8.70 ∧ pad_length APW9322 = 0 ∧
        ∃ p, (generate_geometry APW9322 ⟨1, 1, ""⟩).pads.head? = some p ∧
          p.position = ⟨0, -4.35⟩) := by
  rintro ⟨hc, -⟩
  norm_num [APW9322] at hc

/-- C11 (amended): the 20-pin lookup yields APW9322; generating it double-sided
with `via_outside` set gives 20 pads; the entry has `C = 15.00` and `D = 8.70`,
so `pad_length = 3.15`; and pad 1 is drawn at `x = 0`, `y = -6.7125` (nominal
`-5.925` shifted by the drill offset `0.7875`). -/
theorem C11_apw9322_pad1 (opts : footprint_options_t) (hd : opts.double_sided ≠ 0)
    (hv : opts.via_outside ≠ 0) :
    find_component_by_pins 20 = some APW9322 ∧
      (generate_geometry APW9322 opts).pads.length = 20 ∧
      APW9322.body.c = 15.00 ∧ APW9322.body.d = 8.70 ∧ pad_length APW9322 = 3.15 ∧
      ∃ p, (generate_geometry APW9322 opts).pads.head? = some p ∧ p.number = 1 ∧
        p.position = ⟨0, -6.7125⟩ ∧ p.drill.offset = ⟨0, 0.7875⟩ := by
  have hc : loop_count (cp0 APW9322) (cp1 APW9322) = 3 := by decide
  refine ⟨rfl, ?_, rfl, rfl, by norm_num [pad_length, APW9322], ?_⟩
  · rw [generate_geometry_pads]
    rw [length_calculate_pin_positions]
    decide
  · refine ⟨emit_pad opts (cp0 APW9322) 0 (-(APW9322.body.c - pad_length APW9322) / 2)
      APW9322.pad_width (pad_length APW9322), ?_, ?_, ?_, ?_⟩
    · simp [generate_geometry_pads, calculate_pin_positions, pads_top1, hc, pad_loop]
    · simp [emit_pad_number, cp0]
    · rw [emit_pad_th opts hd]
      norm_num [hv, pad_length, APW9322]
    · rw [emit_pad_th opts hd]
      norm_num [hv, pad_length, APW9322]


/-- Witness for C11 (amended) with the default options of `main`. -/
theorem C11_apw9322_pad1_witness :
    (⟨1, 1, ""⟩ : footprint_options_t).double_sided ≠ 0 ∧
      (⟨1, 1, ""⟩ : footprint_options_t).via_outside ≠ 0 ∧
      (generate_geometry APW9322 ⟨1, 1, ""⟩).pads.length = 20 :=
  ⟨by decide, by decide, (C11_apw9322_pad1 ⟨1, 1, ""⟩ (by decide) (by decide)).2.1⟩

/-- C12: every entry of the component catalog satisfies
`pins = 2 * pins_x + 2 * pins_y`. -/
theorem C12_pin_total (spec : component_spec_t) (h : spec ∈ component_specs) :
    spec.pins = 2 * spec.pins_x + 2 * spec.pins_y := by
  rcases mem_component_specs h with rfl | rfl | rfl | rfl | rfl | rfl | rfl <;> decide

/-- Witness for C12 at the 32-pin entry. -/
theorem C12_pin_total_witness :
    APW9324 ∈ component_specs ∧ APW9324.pins = 2 * APW9324.pins_x + 2 * APW9324.pins_y :=
  ⟨by simp [component_specs], C12_pin_total APW9324 (by simp [component_specs])⟩

/-- C13: for every integer `n`, when `n` is one of 20, 28, 32, 44, 52, 68, 84
`find_component_by_pins n` returns a catalog entry whose `pins` field is `n` and
`get_config_for_pins n` returns the row with the same name, pin grid, pitch,
dimensions and pad width; for every other `n` both return nothing. -/
theorem C13_lookup (n : Int) :
    (n ∈ [20, 28, 32, 44, 52, 68, 84] →
        ∃ s c, find_component_by_pins n = some s ∧ s ∈ component_specs ∧ s.pins = n ∧
          get_config_for_pins n = some c ∧ c.name = s.name ∧ c.pins_x = s.pins_x ∧
          c.pins_y = s.pins_y ∧ c.pitch = s.pitch ∧ c.a = s.body.a ∧ c.b = s.body.b ∧
          c.c = s.body.c ∧ c.d = s.body.d ∧ c.pad_width = s.pad_width) ∧
      (n ∉ [20, 28, 32, 44, 52, 68, 84] →
        find_component_by_pins n = none ∧ get_config_for_pins n = none) := by
  refine ⟨?_, ?_⟩
  · intro hn
    simp only [List.mem_cons, List.mem_singleton, List.not_mem_nil, or_false] at hn
    rcases hn with rfl | rfl | rfl | rfl | rfl | rfl | rfl
    · exact ⟨APW9322, _, rfl, by simp [component_specs], rfl, rfl, rfl, rfl, rfl, rfl, rfl,
        rfl, rfl, rfl, rfl⟩
    · exact ⟨APW9323, _, rfl, by simp [component_specs], rfl, rfl, rfl, rfl, rfl, rfl, rfl,
        rfl, rfl, rfl, rfl⟩
    · exact ⟨APW9324, _, rfl, by simp [component_specs], rfl, rfl, rfl, rfl, rfl, rfl, rfl,
        rfl, rfl, rfl, rfl⟩
    · exact ⟨APW9325, _, rfl, by simp [component_specs], rfl, rfl, rfl, rfl, rfl, rfl, rfl,
        rfl, rfl, rfl, rfl⟩
    · exact ⟨APW9326, _, rfl, by simp [component_specs], rfl, rfl, rfl, rfl, rfl, rfl, rfl,
        rfl, rfl, rfl, rfl⟩
    · exact ⟨APW9327, _, rfl, by simp [component_specs], rfl, rfl, rfl, rfl, rfl, rfl, rfl,
        rfl, rfl, rfl, rfl⟩
    · exact ⟨APW9328, _, rfl, by simp [component_specs], rfl, rfl, rfl, rfl, rfl, rfl, rfl,
        rfl, rfl, rfl, rfl⟩
  · intro hn
    simp only [List.mem_cons, List.mem_singleton, List.not_mem_nil, or_false, not_or] at hn
    obtain ⟨h1, h2, h3, h4, h5, h6, h7⟩ := hn
    have e1 : ¬ (20 : Int) = n := fun e => h1 e.symm
    have e2 : ¬ (28 : Int) = n := fun e => h2 e.symm
    have e3 : ¬ (32 : Int) = n := fun e => h3 e.symm
    have e4 : ¬ (44 : Int) = n := fun e => h4 e.symm
    have e5 : ¬ (52 : Int) = n := fun e => h5 e.symm
    have e6 : ¬ (68 : Int) = n := fun e => h6 e.symm
    have e7 : ¬ (84 : Int) = n := fun e => h7 e.symm
    refine ⟨?_, ?_⟩
    · simp [find_component_by_pins, component_specs, List.find?, APW9322, APW9323, APW9324,
        APW9325, APW9326, APW9327, APW9328, e1, e2, e3, e4, e5, e6, e7]
    · simp [get_config_for_pins, pin_counts, configs, List.find?, e1, e2, e3, e4, e5, e6, e7]

/-- C14: for every spec `generate_courtyard_lines` leaves exactly four
segments, each of width 0.05 on `F.CrtYd`; their starts are the four corners
`(±A/2, ±C/2)` and so are their ends (each list a rearrangement of the corner
list); each segment ends where another starts, closing one loop through all
four; and the four corners are distinct when `A` and `C` are not zero. -/
theorem C14_courtyard (geom : footprint_geometry_t) (spec : component_spec_t) :
    ∃ l0 l1 l2 l3 : line_t,
      (generate_courtyard_lines geom spec).courtyard_lines = [l0, l1, l2, l3] ∧
      (∀ l ∈ [l0, l1, l2, l3], l.width = 0.05 ∧ l.layer = "F.CrtYd") ∧
      List.Perm [l0.start, l1.start, l2.start, l3.start]
        [⟨-(spec.body.a / 2), -(spec.body.c / 2)⟩, ⟨spec.body.a / 2, -(spec.body.c / 2)⟩,
          ⟨spec.body.a / 2, spec.body.c / 2⟩, ⟨-(spec.body.a / 2), spec.body.c / 2⟩] ∧
      List.Perm [l0.end_, l1.end_, l2.end_, l3.end_]
        [⟨-(spec.body.a / 2), -(spec.body.c / 2)⟩, ⟨spec.body.a / 2, -(spec.body.c / 2)⟩,
          ⟨spec.body.a / 2, spec.body.c / 2⟩, ⟨-(spec.body.a / 2), spec.body.c / 2⟩] ∧
      l0.end_ = l3.start ∧ l3.end_ = l2.start ∧ l2.end_ = l1.start ∧ l1.end_ = l0.start ∧
      (spec.body.a ≠ 0 → spec.body.c ≠ 0 →
        List.Nodup ([⟨-(spec.body.a / 2), -(spec.body.c / 2)⟩,
          ⟨spec.body.a / 2, -(spec.body.c / 2)⟩, ⟨spec.body.a / 2, spec.body.c / 2⟩,
          ⟨-(spec.body.a / 2), spec.body.c / 2⟩] : List point_t)) := by
  refine ⟨_, _, _, _, rfl, ?_, ?_, ?_, rfl, rfl, rfl, rfl, ?_⟩
  · intro l hl
    simp only [List.mem_cons, List.mem_singleton, List.not_mem_nil, or_false] at hl
    rcases hl with rfl | rfl | rfl | rfl <;> exact ⟨rfl, rfl⟩
  · exact List.Perm.cons _ ((List.Perm.swap _ _ _).trans
      ((List.Perm.cons _ (List.Perm.swap _ _ _)).trans (List.Perm.swap _ _ _)))
  · exact (List.Perm.swap _ _ _).trans
      (List.Perm.cons _ (List.Perm.cons _ (List.Perm.swap _ _ _)))
  · intro ha hc
    have h1 : ¬ (-(spec.body.a / 2) = spec.body.a / 2) := by
      intro e
      apply ha
      linarith
    have h2 : ¬ (spec.body.a / 2 = -(spec.body.a / 2)) := fun e => h1 e.symm
    have h3 : ¬ (-(spec.body.c / 2) = spec.body.c / 2) := by
      intro e
      apply hc
      linarith
    have h4 : ¬ (spec.body.c / 2 = -(spec.body.c / 2)) := fun e => h3 e.symm
    simp [h1, h2, h3, h4]


/-- C15: for every spec and options the fabrication outline built by
`generate_geometry` is the list of the sixteen literal records of
`kicad_mod_fabrication`, every segment on `F.Fab` with width 0.1, and it is the
same list for any two specs. -/
theorem C15_fabrication (spec spec2 : component_spec_t) (opts opts2 : footprint_options_t) :
    (generate_geometry spec opts).fab_lines = kicad_mod_fabrication ∧
      (generate_geometry spec opts).fab_lines.length = 16 ∧
      (∀ l ∈ (generate_geometry spec opts).fab_lines, l.layer = "F.Fab" ∧ l.width = 0.1) ∧
      (generate_geometry spec opts).fab_lines = (generate_geometry spec2 opts2).fab_lines := by
  have h : ∀ (s : component_spec_t) (o : footprint_options_t),
      (generate_geometry s o).fab_lines = kicad_mod_fabrication := fun _ _ => rfl
  rw [h spec opts, h spec2 opts2]
  refine ⟨rfl, rfl, ?_, rfl⟩
  intro l hl
  simp only [kicad_mod_fabrication, List.mem_cons, List.mem_singleton, List.not_mem_nil,
    or_false] at hl
  rcases hl with rfl | rfl | rfl | rfl | rfl | rfl | rfl | rfl | rfl | rfl | rfl | rfl | rfl |
    rfl | rfl | rfl <;> exact ⟨rfl, rfl⟩

/-- C16 (as stated, refuted): one call of `generate_silkscreen_lines` for the
84-pin entry on the empty geometry does not leave 14 segments. -/
theorem C16_silkscreen_count_counterexample :
    ¬ ((generate_silkscreen_lines calloc_geometry APW9328 "F.SilkS").silkscreen_lines.length
        = calloc_geometry.silkscreen_lines.length + 14) := by
  decide

/-- C16 (amended): for every spec and layer, one call of
`generate_silkscreen_lines` appends exactly 15 segments on that layer: 6 outline
segments of width 0.12 followed by 9 decorative segments of width 0.1. -/
theorem C16_silkscreen_count (geom : footprint_geometry_t) (spec : component_spec_t)
    (layer : String) :
    ∃ base decor : List line_t,
      (generate_silkscreen_lines geom spec layer).silkscreen_lines
        = geom.silkscreen_lines ++ (base ++ decor) ∧
      base.length = 6 ∧ decor.length = 9 ∧
      (∀ l ∈ base, l.width = 0.12 ∧ l.layer = layer) ∧
      (∀ l ∈ decor, l.width = 0.1 ∧ l.layer = layer) := by
  refine ⟨(silkscreen_segments spec layer).take 6, (silkscreen_segments spec layer).drop 6,
    ?_, rfl, rfl, ?_, ?_⟩
  · rw [List.take_append_drop]
    rfl
  · intro l hl
    simp only [silkscreen_segments, List.take_succ_cons, List.take_zero, List.mem_cons,
      List.mem_singleton, List.not_mem_nil, or_false] at hl
    rcases hl with rfl | rfl | rfl | rfl | rfl | rfl <;> exact ⟨rfl, rfl⟩
  · intro l hl
    simp only [silkscreen_segments, List.drop_succ_cons, List.drop_zero, List.mem_cons,
      List.mem_singleton, List.not_mem_nil, or_false] at hl
    rcases hl with rfl | rfl | rfl | rfl | rfl | rfl | rfl | rfl | rfl <;> exact ⟨rfl, rfl⟩

/-- C17: for a spec with pin count 84, the segments `generate_silkscreen_lines`
appends after its 6 outline segments are, in order and coordinate for
coordinate, the literal decorative records of `kicad_mod_silkscreen`, each with
width 0.1. -/
theorem C17_decor_84 (geom : footprint_geometry_t) (spec : component_spec_t)
    (h : spec.pins = 84) (layer : String) (cfg : component_config_t) :
    (generate_silkscreen_lines geom spec layer).silkscreen_lines.drop
        (geom.silkscreen_lines.length + 6)
      = (kicad_mod_silkscreen cfg layer).drop 6 ∧
      ∀ l ∈ (generate_silkscreen_lines geom spec layer).silkscreen_lines.drop
          (geom.silkscreen_lines.length + 6), l.width = 0.1 := by
  rw [drop_silkscreen_lines]
  have e : (silkscreen_segments spec layer).drop 6 = (kicad_mod_silkscreen cfg layer).drop 6 := by
    simp only [silkscreen_segments, kicad_mod_silkscreen, List.drop_succ_cons, List.drop_zero,
      if_pos h]
  rw [e]
  refine ⟨rfl, ?_⟩
  intro l hl
  simp only [kicad_mod_silkscreen, List.drop_succ_cons, List.drop_zero, List.mem_cons,
    List.mem_singleton, List.not_mem_nil, or_false] at hl
  rcases hl with rfl | rfl | rfl | rfl | rfl | rfl | rfl | rfl | rfl <;> rfl

/-- Witness for C17 at the 84-pin catalog entry on the front silkscreen layer. -/
theorem C17_decor_84_witness :
    APW9328.pins = 84 ∧
      (generate_silkscreen_lines calloc_geometry APW9328 "F.SilkS").silkscreen_lines.drop
          (calloc_geometry.silkscreen_lines.length + 6)
        = (kicad_mod_silkscreen ⟨"APW9328", 21, 21, 1.27, 36.60, 27.50, 36.60, 27.50, 0.9⟩
            "F.SilkS").drop 6 :=
  ⟨rfl, (C17_decor_84 calloc_geometry APW9328 rfl "F.SilkS"
    ⟨"APW9328", 21, 21, 1.27, 36.60, 27.50, 36.60, 27.50, 0.9⟩).1⟩

/-- C18: for every spec whose pin count is not 84 (in particular the six other
catalog entries), `generate_silkscreen_lines` appends after its 6 outline
segments exactly 9 decorative segments, and these are, in order, the 9 literal
decorative records of the 84-pin footprint with every endpoint's x coordinate
multiplied by `body.a / 36.60` and y coordinate multiplied by `body.c / 36.60`,
each of width 0.1 on the given layer: the list is written out literal by
literal, and it is the list of the literal records of `kicad_mod_silkscreen`
(the 84-pin records, see C17) scaled endpoint by endpoint. -/
theorem C18_decor_scaled (geom : footprint_geometry_t) (spec : component_spec_t)
    (h : spec.pins ≠ 84) (layer : String) (cfg : component_config_t) :
    (generate_silkscreen_lines geom spec layer).silkscreen_lines.drop
        (geom.silkscreen_lines.length + 6)
      = [ ⟨⟨13.675 * (spec.body.a / 36.60), -14.8 * (spec.body.c / 36.60)⟩,
            ⟨14.175 * (spec.body.a / 36.60), -14.8 * (spec.body.c / 36.60)⟩, 0.1, layer⟩,
          ⟨⟨14.175 * (spec.body.a / 36.60), -14.8 * (spec.body.c / 36.60)⟩,
            ⟨15.325 * (spec.body.a / 36.60), -13.65 * (spec.body.c / 36.60)⟩, 0.1, layer⟩,
          ⟨⟨-13.675 * (spec.body.a / 36.60), -14.8 * (spec.body.c / 36.60)⟩,
            ⟨-15.325 * (spec.body.a / 36.60), -14.8 * (spec.body.c / 36.60)⟩, 0.1, layer⟩,
          ⟨⟨15.325 * (spec.body.a / 36.60), -13.65 * (spec.body.c / 36.60)⟩,
            ⟨15.325 * (spec.body.a / 36.60), -13.15 * (spec.body.c / 36.60)⟩, 0.1, layer⟩,
          ⟨⟨15.325 * (spec.body.a / 36.60), 15.85 * (spec.body.c / 36.60)⟩,
            ⟨15.325 * (spec.body.a / 36.60), 14.2 * (spec.body.c / 36.60)⟩, 0.1, layer⟩,
          ⟨⟨-13.675 * (spec.body.a / 36.60), 15.85 * (spec.body.c / 36.60)⟩,
            ⟨-15.325 * (spec.body.a / 36.60), 15.85 * (spec.body.c / 36.60)⟩, 0.1, layer⟩,
          ⟨⟨-15.325 * (spec.body.a / 36.60), 15.85 * (spec.body.c / 36.60)⟩,
            ⟨-15.325 * (spec.body.a / 36.60), 14.2 * (spec.body.c / 36.60)⟩, 0.1, layer⟩,
          ⟨⟨-15.325 * (spec.body.a / 36.60), -14.8 * (spec.body.c / 36.60)⟩,
            ⟨-15.325 * (spec.body.a / 36.60), -13.15 * (spec.body.c / 36.60)⟩, 0.1, layer⟩,
          ⟨⟨13.675 * (spec.body.a / 36.60), 15.85 * (spec.body.c / 36.60)⟩,
            ⟨15.325 * (spec.body.a / 36.60), 15.85 * (spec.body.c / 36.60)⟩, 0.1, layer⟩ ] ∧
      (generate_silkscreen_lines geom spec layer).silkscreen_lines.drop
          (geom.silkscreen_lines.length + 6)
        = ((kicad_mod_silkscreen cfg layer).drop 6).map
            (fun l =>
              { start := ⟨l.start.x * (spec.body.a / 36.60), l.start.y * (spec.body.c / 36.60)⟩
                end_ := ⟨l.end_.x * (spec.body.a / 36.60), l.end_.y * (spec.body.c / 36.60)⟩
                width := l.width
                layer := l.layer }) ∧
      ((generate_silkscreen_lines geom spec layer).silkscreen_lines.drop
          (geom.silkscreen_lines.length + 6)).length = 9 := by
  rw [drop_silkscreen_lines]
  simp only [silkscreen_segments, kicad_mod_silkscreen, List.drop_succ_cons, List.drop_zero,
    if_neg h, List.map_cons, List.map_nil, neg_mul, List.length_cons, List.length_nil]
  exact ⟨trivial, trivial, trivial⟩

/-- Witness for C18 at the 32-pin catalog entry on the front silkscreen layer:
the first decorative segment runs from `(13.675 * 17.40 / 36.60,
-14.8 * 19.90 / 36.60)` to `(14.175 * 17.40 / 36.60, -14.8 * 19.90 / 36.60)`. -/
theorem C18_decor_scaled_witness :
    APW9324.pins ≠ 84 ∧
      ((generate_silkscreen_lines calloc_geometry APW9324 "F.SilkS").silkscreen_lines.drop
          (calloc_geometry.silkscreen_lines.length + 6)).length = 9 ∧
      ((generate_silkscreen_lines calloc_geometry APW9324 "F.SilkS").silkscreen_lines.drop
          (calloc_geometry.silkscreen_lines.length + 6)).head?
        = some ⟨⟨13.675 * (17.40 / 36.60), -14.8 * (19.90 / 36.60)⟩,
            ⟨14.175 * (17.40 / 36.60), -14.8 * (19.90 / 36.60)⟩, 0.1, "F.SilkS"⟩ :=
  ⟨by decide,
    (C18_decor_scaled calloc_geometry APW9324 (by decide) "F.SilkS"
      ⟨"APW9324", 7, 9, 1.27, 17.40, 11.15, 19.90, 13.60, 0.9⟩).2.2,
    by
      rw [(C18_decor_scaled calloc_geometry APW9324 (by decide) "F.SilkS"
        ⟨"APW9324", 7, 9, 1.27, 17.40, 11.15, 19.90, 13.60, 0.9⟩).1]
      rfl⟩


/-- C19: for every spec and layer, the first six segments one call of
`generate_silkscreen_lines` appends have width 0.12 and, with `X = A/2 + 0.2` and
`Y = C/2 + 0.2`, join end to start into one open path: from `(1, -Y)` along the
top to the chamfer start `(X - 1, -Y)`, diagonally to `(X, -Y + 1)`, down the
right side to `(X, Y)`, along the bottom to `(-X, Y)`, up the left side to
`(-X, -Y)` and along the top to `(-1, -Y)`. -/
theorem C19_base_outline (geom : footprint_geometry_t) (spec : component_spec_t)
    (layer : String) :
    ∃ right left bottom chamfer top_left top_right : line_t,
      ((generate_silkscreen_lines geom spec layer).silkscreen_lines.drop
          geom.silkscreen_lines.length).take 6
        = [right, left, bottom, chamfer, top_left, top_right] ∧
      (∀ l ∈ [right, left, bottom, chamfer, top_left, top_right],
        l.width = 0.12 ∧ l.layer = layer) ∧
      top_right.start = ⟨1, -(spec.body.c / 2 + 0.2)⟩ ∧
      top_right.end_ = ⟨spec.body.a / 2 + 0.2 - 1, -(spec.body.c / 2 + 0.2)⟩ ∧
      chamfer.start = top_right.end_ ∧
      chamfer.end_ = ⟨spec.body.a / 2 + 0.2, -(spec.body.c / 2 + 0.2) + 1⟩ ∧
      right.start = chamfer.end_ ∧
      right.end_ = ⟨spec.body.a / 2 + 0.2, spec.body.c / 2 + 0.2⟩ ∧
      bottom.start = right.end_ ∧
      bottom.end_ = ⟨-(spec.body.a / 2 + 0.2), spec.body.c / 2 + 0.2⟩ ∧
      left.start = bottom.end_ ∧
      left.end_ = ⟨-(spec.body.a / 2 + 0.2), -(spec.body.c / 2 + 0.2)⟩ ∧
      top_left.start = left.end_ ∧
      top_left.end_ = ⟨-1, -(spec.body.c / 2 + 0.2)⟩ := by
  have hd : (generate_silkscreen_lines geom spec layer).silkscreen_lines.drop
      geom.silkscreen_lines.length = silkscreen_segments spec layer := by
    have := drop_silkscreen_lines geom spec layer 0
    simpa using this
  rw [hd]
  refine ⟨_, _, _, _, _, _, rfl, ?_, ?_, ?_, rfl, ?_, rfl, ?_, rfl, ?_, rfl, ?_, rfl, ?_⟩
  · intro l hl
    simp only [List.mem_cons, List.mem_singleton, List.not_mem_nil, or_false] at hl
    rcases hl with rfl | rfl | rfl | rfl | rfl | rfl <;> exact ⟨rfl, rfl⟩
  all_goals
    first
    | rfl
    | (simp only [point_t.mk.injEq]; done)
    | (simp only [point_t.mk.injEq]
       refine ⟨?_, ?_⟩ <;> first | trivial | ring)

/-- C20: for every spec `calculate_text_positions` writes, with
`offset = body.a / 2 + 1.0`, the reference anchor `(0, -offset)`, the value
anchor `(0, offset + 0.5)` and the user anchor `(0, 0.525)`; the user anchor
does not depend on the spec, `reference.y + value.y = 0.5`, and these are the
anchors of the geometry `generate_geometry` builds. -/
theorem C20_text_positions (geom : footprint_geometry_t) (spec : component_spec_t)
    (opts : footprint_options_t) :
    ∃ reference value user : point_t,
      (calculate_text_positions geom spec).text_positions = [reference, value, user] ∧
      reference = ⟨0, -(spec.body.a / 2 + 1.0)⟩ ∧
      value = ⟨0, spec.body.a / 2 + 1.0 + 0.5⟩ ∧
      user = ⟨0, 0.525⟩ ∧
      reference.y + value.y = 0.5 ∧
      (generate_geometry spec opts).text_positions = [reference, value, user] := by
  refine ⟨_, _, _, rfl, rfl, rfl, rfl, ?_, rfl⟩
  norm_num
  ring


/-! ## Properties of the aggregate, the older generator and the command line -/

/-- C21: for every spec and options the geometry `generate_geometry` returns
consists of exactly the pads of `calculate_pin_positions`, the silkscreen
segments of the `F.SilkS` call followed by those of the `B.SilkS` call, the
courtyard segments, the fabrication segments and the three text anchors; the
two silkscreen halves agree in every coordinate and width and carry the layer
names `F.SilkS` and `B.SilkS`. -/
theorem C21_generate_geometry (spec : component_spec_t) (opts : footprint_options_t) :
    generate_geometry spec opts =
        { pads := calculate_pin_positions spec opts
          silkscreen_lines :=
            (generate_silkscreen_lines calloc_geometry spec "F.SilkS").silkscreen_lines ++
              (generate_silkscreen_lines calloc_geometry spec "B.SilkS").silkscreen_lines
          fab_lines := (generate_fabrication_lines calloc_geometry spec).fab_lines
          courtyard_lines := (generate_courtyard_lines calloc_geometry spec).courtyard_lines
          text_positions := (calculate_text_positions calloc_geometry spec).text_positions } ∧
      ((generate_silkscreen_lines calloc_geometry spec "B.SilkS").silkscreen_lines.map
          (fun l => (l.start, l.end_, l.width))
        = (generate_silkscreen_lines calloc_geometry spec "F.SilkS").silkscreen_lines.map
          (fun l => (l.start, l.end_, l.width))) ∧
      (∀ l ∈ (generate_silkscreen_lines calloc_geometry spec "F.SilkS").silkscreen_lines,
        l.layer = "F.SilkS") ∧
      (∀ l ∈ (generate_silkscreen_lines calloc_geometry spec "B.SilkS").silkscreen_lines,
        l.layer = "B.SilkS") := by
  have hall : ∀ (layer : String), ∀ l ∈ silkscreen_segments spec layer, l.layer = layer := by
    intro layer l hl
    simp only [silkscreen_segments, List.mem_cons, List.mem_singleton, List.not_mem_nil,
      or_false] at hl
    rcases hl with rfl | rfl | rfl | rfl | rfl | rfl | rfl | rfl | rfl | rfl | rfl | rfl |
      rfl | rfl | rfl <;> rfl
  refine ⟨rfl, rfl, ?_, ?_⟩
  · intro l hl
    exact hall "F.SilkS" l (by simpa [silkscreen_lines_append, calloc_geometry] using hl)
  · intro l hl
    exact hall "B.SilkS" l (by simpa [silkscreen_lines_append, calloc_geometry] using hl)

/-- C22 (as stated, refuted at pin count 20): with the default options the
footprint printed by `apw.c` is not the geometry built by `plcc-gen.c`. -/
theorem C22_equivalence_counterexample :
    ¬ (∀ spec cfg, find_component_by_pins 20 = some spec →
        get_config_for_pins 20 = some cfg →
        apw_footprint cfg 20 1 1
          = generate_geometry spec ⟨1, 1, "00000000-0000-0000-0000-000000000000"⟩) := by
  intro h
  have h1 := h APW9322 _ rfl rfl
  have h2 := congrArg (fun g => g.silkscreen_lines.head?.map (fun l => l.start.x)) h1
  simp only [apw_footprint, kicad_mod_silkscreen, generate_geometry, generate_silkscreen_lines,
    generate_courtyard_lines, generate_fabrication_lines, calculate_text_positions,
    calloc_geometry, silkscreen_segments, List.nil_append, List.cons_append, List.head?_cons,
    Option.map_some', Option.some.injEq] at h2
  norm_num [APW9322] at h2

/-- C22 (amended): for every supported pin count (both lookups succeed) and
every option combination, the footprint printed by `apw.c` and the geometry built
by `plcc-gen.c` have the same text anchors, the same courtyard and fabrication
segments in the same order and the same pads; for pin count 84 the silkscreen
segments are the same as well. -/
theorem C22_equivalence (n : Int) (spec : component_spec_t) (cfg : component_config_t)
    (hs : find_component_by_pins n = some spec) (hc : get_config_for_pins n = some cfg)
    (th via : Int) (ts : String) :
    (apw_footprint cfg n th via).text_positions
        = (generate_geometry spec ⟨th, via, ts⟩).text_positions ∧
      (apw_footprint cfg n th via).courtyard_lines
        = (generate_geometry spec ⟨th, via, ts⟩).courtyard_lines ∧
      (apw_footprint cfg n th via).fab_lines
        = (generate_geometry spec ⟨th, via, ts⟩).fab_lines ∧
      (apw_footprint cfg n th via).pads = (generate_geometry spec ⟨th, via, ts⟩).pads ∧
      (n = 84 → apw_footprint cfg n th via = generate_geometry spec ⟨th, via, ts⟩) := by
  obtain ⟨rfl, -, -⟩ := lookup_agree hs hc
  have ht : (apw_footprint cfg n th via).text_positions
      = (generate_geometry (spec_of_config cfg n) ⟨th, via, ts⟩).text_positions := by
    simp only [apw_footprint, kicad_mod_texts, generate_geometry, calculate_text_positions,
      spec_of_config]
    norm_num
  have hp : (apw_footprint cfg n th via).pads
      = (generate_geometry (spec_of_config cfg n) ⟨th, via, ts⟩).pads :=
    kicad_mod_pads_eq cfg n th via ts
  refine ⟨ht, rfl, rfl, hp, ?_⟩
  intro h84
  subst h84
  have hcfg : cfg = ⟨"APW9328", 21, 21, 1.27, 36.60, 27.50, 36.60, 27.50, 0.9⟩ := by
    have h0 : get_config_for_pins 84
        = some ⟨"APW9328", 21, 21, 1.27, 36.60, 27.50, 36.60, 27.50, 0.9⟩ := rfl
    rw [h0] at hc
    exact (Option.some.inj hc).symm
  have hsilk : (apw_footprint cfg 84 th via).silkscreen_lines
      = (generate_geometry (spec_of_config cfg 84) ⟨th, via, ts⟩).silkscreen_lines := by
    subst hcfg
    simp only [apw_footprint, kicad_mod_silkscreen, generate_geometry,
      generate_silkscreen_lines, generate_courtyard_lines, generate_fabrication_lines,
      calculate_text_positions, calloc_geometry, silkscreen_segments, spec_of_config,
      List.nil_append]
    norm_num
  have hfab : (apw_footprint cfg 84 th via).fab_lines
      = (generate_geometry (spec_of_config cfg 84) ⟨th, via, ts⟩).fab_lines := rfl
  have hcy : (apw_footprint cfg 84 th via).courtyard_lines
      = (generate_geometry (spec_of_config cfg 84) ⟨th, via, ts⟩).courtyard_lines := rfl
  cases ha : apw_footprint cfg 84 th via
  cases hg : generate_geometry (spec_of_config cfg 84) ⟨th, via, ts⟩
  rw [ha, hg] at ht hp hsilk hfab hcy
  simp only at ht hp hsilk hfab hcy
  rw [ht, hp, hsilk, hfab, hcy]

/-- Witness for C22 (amended) at pin count 84 with the default options. -/
theorem C22_equivalence_witness :
    find_component_by_pins 84 = some APW9328 ∧
      get_config_for_pins 84
        = some ⟨"APW9328", 21, 21, 1.27, 36.60, 27.50, 36.60, 27.50, 0.9⟩ ∧
      apw_footprint ⟨"APW9328", 21, 21, 1.27, 36.60, 27.50, 36.60, 27.50, 0.9⟩ 84 1 1
        = generate_geometry APW9328 ⟨1, 1, ""⟩ :=
  ⟨rfl, rfl, (C22_equivalence 84 APW9328 _ rfl rfl 1 1 "").2.2.2.2 rfl⟩

/-- C24: for every configuration row, pin count and option values, the pad
records `kicad_mod_pads` prints are, pin by pin, the pads
`calculate_pin_positions` writes for the same data (number, drawn position,
size, kind, drill offset, layer string); in particular for a square pad
(`size.x = size.y`) in through-hole mode both place the drill offset on the y
axis. -/
theorem C24_pads_refinement (cfg : component_config_t) (pins th via : Int) (ts : String) :
    kicad_mod_pads cfg pins via th
        = calculate_pin_positions (spec_of_config cfg pins) ⟨th, via, ts⟩ ∧
      ∀ (i : Int) (px py s : ℚ), th ≠ 0 →
        pad via i px py s s th = emit_pad ⟨th, via, ts⟩ i px py s s ∧
          (pad via i px py s s th).drill.offset.x = 0 ∧
          ((pad via i px py s s th).drill.offset.y = s / 4 ∨
            (pad via i px py s s th).drill.offset.y = -(s / 4)) := by
  refine ⟨kicad_mod_pads_eq cfg pins th via ts, ?_⟩
  intro i px py s hth
  refine ⟨pad_eq_emit_pad th via ts i px py s s, ?_, ?_⟩
  · by_cases hv : via = 0 <;> by_cases hp : py < 0 <;> simp [pad, hth, hv, hp]
  · by_cases hv : via = 0 <;> by_cases hp : py < 0 <;> simp [pad, hth, hv, hp]

/-- C25: for every catalog entry and options, the geometry `generate_geometry`
builds holds `pins` pads (at most 84, capacity 128), 30 silkscreen segments for
the two layers together (capacity 64), 16 fabrication segments (capacity 64) and
4 courtyard segments (capacity 8). -/
theorem C25_capacities (spec : component_spec_t) (h : spec ∈ component_specs)
    (opts : footprint_options_t) :
    ((generate_geometry spec opts).pads.length : Int) = spec.pins ∧
      (generate_geometry spec opts).pads.length ≤ 128 ∧
      (generate_geometry spec opts).silkscreen_lines.length = 30 ∧
      (generate_geometry spec opts).silkscreen_lines.length ≤ 64 ∧
      (generate_geometry spec opts).fab_lines.length = 16 ∧
      (generate_geometry spec opts).fab_lines.length ≤ 64 ∧
      (generate_geometry spec opts).courtyard_lines.length = 4 ∧
      (generate_geometry spec opts).courtyard_lines.length ≤ 8 := by
  have hs : (generate_geometry spec opts).silkscreen_lines.length = 30 := rfl
  have hf : (generate_geometry spec opts).fab_lines.length = 16 := rfl
  have hc : (generate_geometry spec opts).courtyard_lines.length = 4 := rfl
  rw [hs, hf, hc, generate_geometry_pads, length_calculate_pin_positions]
  rcases mem_component_specs h with rfl | rfl | rfl | rfl | rfl | rfl | rfl <;> decide

/-- Witness for C25 at the 84-pin entry with the default options. -/
theorem C25_capacities_witness :
    APW9328 ∈ component_specs ∧ (generate_geometry APW9328 ⟨1, 1, ""⟩).pads.length ≤ 128 :=
  ⟨by simp [component_specs],
    (C25_capacities APW9328 (by simp [component_specs]) ⟨1, 1, ""⟩).2.1⟩


/-- C23: when the options are one `--pins n` with `n` outside
{20, 28, 32, 44, 52, 68, 84}, preceded and followed by any mounting flags (and
output file options), both entry points end with exit status 1 and neither
generates or writes a footprint. -/
theorem C23_unsupported_pins (fopen_ok : String → Bool) (pre post : List cli_opt) (n : Int)
    (hn : n ∉ ([20, 28, 32, 44, 52, 68, 84] : List Int))
    (hpre : ∀ a ∈ pre, a = cli_opt.opt_d ∨ a = cli_opt.opt_s ∨ a = cli_opt.opt_v ∨
      a = cli_opt.opt_V ∨ ∃ path, a = cli_opt.opt_o path)
    (hpost : ∀ a ∈ post, a = cli_opt.opt_d ∨ a = cli_opt.opt_s ∨ a = cli_opt.opt_v ∨
      a = cli_opt.opt_V ∨ ∃ path, a = cli_opt.opt_o path) :
    main fopen_ok (pre ++ cli_opt.opt_p n :: post) = ⟨1, none⟩ ∧
      apw_main fopen_ok (pre ++ cli_opt.opt_p n :: post) = ⟨1, none⟩ := by
  refine ⟨?_, ?_⟩
  · obtain ⟨st1, e1, -, -⟩ := main_loop_flags (cli_opt.opt_p n :: post) pre
      ⟨none, 0, 0, ⟨1, 1, "00000000-0000-0000-0000-000000000000"⟩⟩ hpre
    obtain ⟨st2, e2, p2, s2⟩ := main_loop_flags [] post
      { st1 with pins := n, pins_specified := 1 } hpost
    have e : main_loop (pre ++ cli_opt.opt_p n :: post)
        ⟨none, 0, 0, ⟨1, 1, "00000000-0000-0000-0000-000000000000"⟩⟩ = Except.ok st2 := by
      rw [e1, main_loop]
      rw [List.append_nil] at e2
      rw [e2]
      rfl
    have hs : ¬ st2.pins_specified = 0 := by rw [s2]; simp
    have hf : find_component_by_pins st2.pins = none := by
      rw [p2]
      exact find_component_by_pins_eq_none hn
    simp only [main, e, hs, if_false, hf]
  · obtain ⟨st1, e1⟩ := apw_main_loop_flags (cli_opt.opt_p n :: post) pre
      ⟨0, none, 1, 1, none, 0⟩ hpre
    have e : apw_main_loop (pre ++ cli_opt.opt_p n :: post) ⟨0, none, 1, 1, none, 0⟩
        = Except.error 1 := by
      rw [e1, apw_main_loop, get_config_for_pins_eq_none hn]
    simp only [apw_main, e]

/-- Witness for C23: `--single-sided --pins 99 --via-inside`. -/
theorem C23_unsupported_pins_witness :
    (99 : Int) ∉ ([20, 28, 32, 44, 52, 68, 84] : List Int) ∧
      main (fun _ => true) ([cli_opt.opt_s] ++ cli_opt.opt_p 99 :: [cli_opt.opt_V])
        = ⟨1, none⟩ ∧
      apw_main (fun _ => true) ([cli_opt.opt_s] ++ cli_opt.opt_p 99 :: [cli_opt.opt_V])
        = ⟨1, none⟩ :=
  ⟨by decide,
    C23_unsupported_pins (fun _ => true) [cli_opt.opt_s] [cli_opt.opt_V] 99 (by decide)
      (by simp) (by simp)⟩

/-- C26 (as stated, refuted): on `--pins 99 --help` the entry point of `apw.c`
ends with status 1 and that of `plcc-gen.c` with status 0; on
`--pins 99 --pins 20` likewise. -/
theorem C26_mains_counterexample :
    ¬ ((main (fun _ => true) [cli_opt.opt_p 99, cli_opt.opt_h]).status
          = (apw_main (fun _ => true) [cli_opt.opt_p 99, cli_opt.opt_h]).status) ∧
      ¬ ((main (fun _ => true) [cli_opt.opt_p 99, cli_opt.opt_p 20]).status
          = (apw_main (fun _ => true) [cli_opt.opt_p 99, cli_opt.opt_p 20]).status) := by
  constructor <;> decide

/-- C26 (amended): for every sequence of options in which every `--pins` value
is supported, the two entry points end with the same exit status, one writes
exactly when the other does, and then they have selected the same catalog row
(the row of the last `--pins`) and the same `double_sided` and `via_outside`
values. -/
theorem C26_mains_agree (fopen_ok : String → Bool) (args : List cli_opt)
    (hsup : ∀ n, cli_opt.opt_p n ∈ args → n ∈ ([20, 28, 32, 44, 52, 68, 84] : List Int)) :
    (main fopen_ok args).status = (apw_main fopen_ok args).status ∧
      ((main fopen_ok args).written = none ↔ (apw_main fopen_ok args).written = none) ∧
      ∀ spec opts g cfg pins th via g2,
        (main fopen_ok args).written = some (spec, opts, g) →
        (apw_main fopen_ok args).written = some (cfg, pins, th, via, g2) →
          spec = spec_of_config cfg pins ∧ opts.double_sided = th ∧ opts.via_outside = via ∧
            find_component_by_pins pins = some spec ∧ get_config_for_pins pins = some cfg := by
  rcases mains_agree fopen_ok args hsup with ⟨c, e1, e2⟩ | ⟨cfg, pins, th, via, ts, hc, hf, e1, e2⟩
  · rw [e1, e2]
    refine ⟨rfl, Iff.intro (fun _ => rfl) (fun _ => rfl), ?_⟩
    intro spec opts g cfg pins th via g2 h
    cases h
  · rw [e1, e2]
    refine ⟨rfl, Iff.intro (fun h => by cases h) (fun h => by cases h), ?_⟩
    intro spec opts g cfg2 pins2 th2 via2 g2 h1 h2
    cases h1
    cases h2
    exact ⟨rfl, rfl, rfl, hf, hc⟩

/-- Witness for C26 (amended): `--pins 28 --single-sided --pins 84`. -/
theorem C26_mains_agree_witness :
    (∀ n, cli_opt.opt_p n ∈ [cli_opt.opt_p 28, cli_opt.opt_s, cli_opt.opt_p 84] →
        n ∈ ([20, 28, 32, 44, 52, 68, 84] : List Int)) ∧
      (main (fun _ => true) [cli_opt.opt_p 28, cli_opt.opt_s, cli_opt.opt_p 84]).status
        = (apw_main (fun _ => true) [cli_opt.opt_p 28, cli_opt.opt_s, cli_opt.opt_p 84]).status :=
  ⟨by intro n hn; simp at hn; rcases hn with rfl | rfl <;> decide,
    (C26_mains_agree (fun _ => true) [cli_opt.opt_p 28, cli_opt.opt_s, cli_opt.opt_p 84]
      (by intro n hn; simp at hn; rcases hn with rfl | rfl <;> decide)).1⟩


/-- C28 (counterexample): the spec with `pins = 130`, `pins_x = pins_y = 1` has
`pins_x ≥ 0`, `pins_y ≥ 0` and `N = max(130, 1 + 0 + 1 + 2) = 130`, but the
function does not write pads numbered 1..130: the last loop would write its
125th pad (pin 129) to `pads[128]`, past the end of `pad_t pads[128]`. -/
theorem C28_pad_count_counterexample :
    (0 : Int) ≤ (⟨"X", 130, 1, 1, 1.27, ⟨10, 8, 10, 8⟩, 0.9⟩ : component_spec_t).pins_x ∧
      (0 : Int) ≤ (⟨"X", 130, 1, 1, 1.27, ⟨10, 8, 10, 8⟩, 0.9⟩ : component_spec_t).pins_y ∧
      max (130 : Int) (1 + Int.tdiv 1 2 + 1 + 2 * 1) = 130 ∧
      calculate_pin_positions_checked ⟨"X", 130, 1, 1, 1.27, ⟨10, 8, 10, 8⟩, 0.9⟩ ⟨0, 1, ""⟩
        = none ∧
      (calculate_pin_positions_checked ⟨"X", 128, 1, 1, 1.27, ⟨10, 8, 10, 8⟩, 0.9⟩
        ⟨0, 1, ""⟩).isSome = true := by
  refine ⟨by decide, by decide, by decide, ?_, ?_⟩
  · decide!
  · rw [calculate_pin_positions_checked_eq _ _ (by decide) (by decide) (by decide) (by decide)]
    rfl

/-- C28 (amended): for every spec with `pins_x ≥ 0` and `pins_y ≥ 0` whose
`pins` is an `int` and for which `N = max(pins, 1 + pins_x/2 + pins_y +
2*pins_x)` (integer division) is at most 128, the capacity of `pads`, and every
options, the function stays within `pads[128]` and within `int`, the pads
written carry the numbers 1..N in order, and exactly `pins` pads are written if
and only if `pins ≥ 1 + pins_x/2 + pins_y + 2*pins_x`. -/
theorem C28_pad_count (spec : component_spec_t) (opts : footprint_options_t)
    (hx : 0 ≤ spec.pins_x) (hy : 0 ≤ spec.pins_y) (hp : -2147483648 ≤ spec.pins)
    (hN : max spec.pins (1 + Int.tdiv spec.pins_x 2 + spec.pins_y + 2 * spec.pins_x) ≤ 128) :
    ∃ pads : List pad_t,
      calculate_pin_positions_checked spec opts = some pads ∧
      pads.map pad_t.number
        = (List.range' 1
            (max spec.pins
              (1 + Int.tdiv spec.pins_x 2 + spec.pins_y + 2 * spec.pins_x)).toNat).map
            Int.ofNat ∧
      (pads.length : Int)
        = max spec.pins (1 + Int.tdiv spec.pins_x 2 + spec.pins_y + 2 * spec.pins_x) ∧
      ((pads.length : Int) = spec.pins ↔
        1 + Int.tdiv spec.pins_x 2 + spec.pins_y + 2 * spec.pins_x ≤ spec.pins) :=
  ⟨calculate_pin_positions spec opts,
    calculate_pin_positions_checked_eq spec opts hx hy hp hN,
    numbers_calculate_pin_positions spec opts hx hy⟩

/-- Witness for C28 at a spec outside the catalog (`pins_x = 2`, `pins_y = 1`,
`pins = 3`), where 7 pads are written. -/
theorem C28_pad_count_witness :
    (0 : Int) ≤ 2 ∧ (0 : Int) ≤ 1 ∧ (-2147483648 : Int) ≤ 3 ∧
      max (3 : Int) (1 + Int.tdiv 2 2 + 1 + 2 * 2) ≤ 128 ∧
      ∃ pads : List pad_t,
        calculate_pin_positions_checked ⟨"X", 3, 2, 1, 1.27, ⟨10, 8, 10, 8⟩, 0.9⟩ ⟨1, 1, ""⟩
          = some pads ∧
        (pads.length : Int) = 7 :=
  ⟨by decide, by decide, by decide, by decide,
    (C28_pad_count ⟨"X", 3, 2, 1, 1.27, ⟨10, 8, 10, 8⟩, 0.9⟩ ⟨1, 1, ""⟩
      (by decide) (by decide) (by decide) (by decide)).imp
      (fun _ hpads => ⟨hpads.1, hpads.2.2.1⟩)⟩

/-- C29 (counterexample): in the single-sided layout of the 84-pin entry
(`pins_x = pins_y = 21`) pin 2 is stored at `x = 1.27` (the binary64 value of
the literal) and no pad has the reflected position `(-x, y)`; pin 84, its
partner in exact arithmetic, is stored at `x = -1.27 - 2^-48`, the result of 9
rounded additions of the pitch to `-(pins_width - pitch)/2`. -/
theorem C29_reflection_counterexample :
    APW9328 ∈ component_specs ∧ APW9328.pins_x = APW9328.pins_y ∧
      ∃ p ∈ calculate_pin_positions_f64 APW9328 ⟨0, 1, ""⟩,
        p.number = 2 ∧ p.position.x = round_f64 1.27 ∧
        (¬ ∃ q ∈ calculate_pin_positions_f64 APW9328 ⟨0, 1, ""⟩,
            q.position = ⟨-p.position.x, p.position.y⟩ ∧ q.size = p.size) ∧
        ∃ q ∈ calculate_pin_positions_f64 APW9328 ⟨0, 1, ""⟩,
          q.number = 84 ∧ q.position.x = -round_f64 1.27 - 1 / 2 ^ 48 ∧
          q.position.y = p.position.y := by
  refine ⟨by simp [component_specs], by decide, ?_⟩
  decide!

/-- C29 (amended): for every catalog entry with `pins_x = pins_y`, in
single-sided mode, every pad has a pad of the same size whose stored position
is its mirror image under `(x, y) -> (-x, y)` to within `10^-14` mm in each
coordinate, and one whose stored position is its mirror image under
`(x, y) -> (x, -y)` to within `10^-14` mm in each coordinate. -/
theorem C29_reflection (spec : component_spec_t) (h : spec ∈ component_specs)
    (hsq : spec.pins_x = spec.pins_y) (opts : footprint_options_t)
    (hs : opts.double_sided = 0) :
    ∀ p ∈ calculate_pin_positions_f64 spec opts,
      (∃ q ∈ calculate_pin_positions_f64 spec opts,
        q.size = p.size ∧ |q.position.x + p.position.x| ≤ 1 / 10 ^ 14 ∧
          |q.position.y - p.position.y| ≤ 1 / 10 ^ 14) ∧
      (∃ q ∈ calculate_pin_positions_f64 spec opts,
        q.size = p.size ∧ |q.position.x - p.position.x| ≤ 1 / 10 ^ 14 ∧
          |q.position.y + p.position.y| ≤ 1 / 10 ^ 14) := by
  rw [calculate_pin_positions_f64_smd spec opts hs]
  intro p hp
  obtain ⟨⟨q, hq, _, a⟩, ⟨r, hr, _, b⟩⟩ := mirror_f64 h hsq p hp
  exact ⟨⟨q, hq, a⟩, ⟨r, hr, b⟩⟩

/-- Witness for C29 at the 84-pin entry, single-sided. -/
theorem C29_reflection_witness :
    APW9328 ∈ component_specs ∧ APW9328.pins_x = APW9328.pins_y ∧
      (⟨0, 1, ""⟩ : footprint_options_t).double_sided = 0 ∧
      ∀ p ∈ calculate_pin_positions_f64 APW9328 ⟨0, 1, ""⟩,
        ∃ q ∈ calculate_pin_positions_f64 APW9328 ⟨0, 1, ""⟩,
          q.size = p.size ∧ |q.position.x + p.position.x| ≤ 1 / 10 ^ 14 ∧
            |q.position.y - p.position.y| ≤ 1 / 10 ^ 14 :=
  ⟨by simp [component_specs], by decide, rfl,
    fun p hp =>
      (C29_reflection APW9328 (by simp [component_specs]) (by decide) ⟨0, 1, ""⟩ rfl p hp).1⟩

/-- C30 (counterexample): in the single-sided layout of the 84-pin entry pin 1
(a top pad, longer in y) has its outer edge at `|y| + size.y/2 = C/2 - 2^-49`,
not on the courtyard line `C/2`, and the same sum evaluated in binary64 differs
from `C/2` as well; in the single-sided layout of the 32-pin entry the outer
edge of pin 1 is at `C/2 + 2^-51`, outside the courtyard rectangle (the sum
evaluated in binary64 rounds to `C/2`). -/
theorem C30_pads_in_courtyard_counterexample :
    APW9328 ∈ component_specs ∧ APW9324 ∈ component_specs ∧
      (∃ p ∈ calculate_pin_positions_f64 APW9328 ⟨0, 1, ""⟩,
        p.number = 1 ∧ p.size.x < p.size.y ∧
        |p.position.y| + p.size.y / 2 = f64_div (round_f64 APW9328.body.c) 2 - 1 / 2 ^ 49 ∧
        f64_add |p.position.y| (f64_div p.size.y 2)
          ≠ f64_div (round_f64 APW9328.body.c) 2) ∧
      ∃ p ∈ calculate_pin_positions_f64 APW9324 ⟨0, 1, ""⟩,
        p.number = 1 ∧ p.size.x < p.size.y ∧
        |p.position.y| + p.size.y / 2 = f64_div (round_f64 APW9324.body.c) 2 + 1 / 2 ^ 51 ∧
        f64_add |p.position.y| (f64_div p.size.y 2)
          = f64_div (round_f64 APW9324.body.c) 2 := by
  refine ⟨by simp [component_specs], by simp [component_specs], ?_, ?_⟩
  · decide!
  · decide!

/-- C30 (amended): for every catalog entry in single-sided mode and every pad,
with `A/2` and `C/2` the stored courtyard half extents: the outer edges
`|x| + size.x/2` and `|y| + size.y/2` of the pad rectangle, evaluated in
binary64, do not exceed `A/2` and `C/2`; and in exact arithmetic on the stored
values the pad lies inside the courtyard along its short axis and its outer
edge along its long axis is within `10^-14` mm of the courtyard line (a pad
longer in y reaches `|y| = C/2`, a pad longer in x reaches `|x| = A/2`, up to
that tolerance). -/
theorem C30_pads_in_courtyard (spec : component_spec_t) (h : spec ∈ component_specs)
    (opts : footprint_options_t) (hs : opts.double_sided = 0) :
    ∀ p ∈ calculate_pin_positions_f64 spec opts,
      f64_add |p.position.x| (f64_div p.size.x 2) ≤ f64_div (round_f64 spec.body.a) 2 ∧
        f64_add |p.position.y| (f64_div p.size.y 2) ≤ f64_div (round_f64 spec.body.c) 2 ∧
        ((p.size.x < p.size.y ∧
            |p.position.x| + p.size.x / 2 ≤ f64_div (round_f64 spec.body.a) 2 ∧
            |(|p.position.y| + p.size.y / 2) - f64_div (round_f64 spec.body.c) 2|
              ≤ 1 / 10 ^ 14) ∨
          (p.size.y < p.size.x ∧
            |p.position.y| + p.size.y / 2 ≤ f64_div (round_f64 spec.body.c) 2 ∧
            |(|p.position.x| + p.size.x / 2) - f64_div (round_f64 spec.body.a) 2|
              ≤ 1 / 10 ^ 14)) := by
  rw [calculate_pin_positions_f64_smd spec opts hs]
  rcases mem_component_specs h with rfl | rfl | rfl | rfl | rfl | rfl | rfl
  · decide!
  · decide!
  · decide!
  · decide!
  · decide!
  · decide!
  · decide!

/-- Witness for C30 at the 32-pin entry, single-sided. -/
theorem C30_pads_in_courtyard_witness :
    APW9324 ∈ component_specs ∧ (⟨0, 1, ""⟩ : footprint_options_t).double_sided = 0 ∧
      ∀ p ∈ calculate_pin_positions_f64 APW9324 ⟨0, 1, ""⟩,
        f64_add |p.position.y| (f64_div p.size.y 2) ≤ f64_div (round_f64 APW9324.body.c) 2 :=
  ⟨by simp [component_specs], rfl,
    fun p hp =>
      (C30_pads_in_courtyard APW9324 (by simp [component_specs]) ⟨0, 1, ""⟩ rfl p hp).2.1⟩

/-! ## Drill clearance -/

/-- C31: for every catalog entry in double-sided mode and either `via_outside`
value, for every pad the drill offset keeps the hole of diameter 0.3 inside the
pad rectangle: `|drill.offset.x| + 0.15 ≤ size.x / 2` and
`|drill.offset.y| + 0.15 ≤ size.y / 2`; the drill diameter is 0.3. -/
theorem C31_drill_inside_pad (spec : component_spec_t) (h : spec ∈ component_specs)
    (opts : footprint_options_t) (hd : opts.double_sided ≠ 0) :
    ∀ p ∈ calculate_pin_positions spec opts,
      p.drill.diameter = 0.3 ∧
        |p.drill.offset.x| + 0.15 ≤ p.size.x / 2 ∧
        |p.drill.offset.y| + 0.15 ≤ p.size.y / 2 := by
  obtain ⟨hw, hwl, -, -⟩ := catalog_dims h
  obtain ⟨hw3, hl6⟩ := catalog_drill_room h
  intro p hp
  obtain ⟨s, hmem, rfl⟩ := (mem_calculate_pin_positions spec opts p).mp hp
  rw [place, emit_pad_th opts hd]
  simp only
  refine ⟨trivial, ?_⟩
  rcases slot_shape spec s hmem with ⟨hx, hy, -⟩ | ⟨hx, hy, -⟩
  · have hle : s.sx ≤ s.sy := by rw [hx, hy]; exact le_of_lt hwl
    rw [if_neg (not_lt.mpr hle), if_pos hle, hx, hy]
    have e0 : |(if opts.via_outside = 0 then (0 : ℚ) * -1 else 0)| = 0 := by
      split <;> simp
    have e1 : |(if opts.via_outside = 0
        then (if s.py < 0 then pad_length spec / 4 else -pad_length spec / 4) * -1
        else (if s.py < 0 then pad_length spec / 4 else -pad_length spec / 4))|
          = pad_length spec / 4 := by
      have hpos : (0 : ℚ) < pad_length spec / 4 := by linarith
      split <;> split
      · rw [mul_neg_one, abs_neg, abs_of_pos hpos]
      · rw [mul_neg_one, abs_neg, neg_div, abs_neg, abs_of_pos hpos]
      · rw [abs_of_pos hpos]
      · rw [neg_div, abs_neg, abs_of_pos hpos]
    rw [e0, e1]
    constructor
    · norm_num
      linarith
    · norm_num
      linarith
  · have hgt : s.sx > s.sy := by rw [hx, hy]; exact hwl
    rw [if_pos hgt, if_neg (not_le.mpr hgt), hx, hy]
    have e0 : |(if opts.via_outside = 0 then (0 : ℚ) * -1 else 0)| = 0 := by
      split <;> simp
    have e1 : |(if opts.via_outside = 0
        then (if s.px < 0 then pad_length spec / 4 else -pad_length spec / 4) * -1
        else (if s.px < 0 then pad_length spec / 4 else -pad_length spec / 4))|
          = pad_length spec / 4 := by
      have hpos : (0 : ℚ) < pad_length spec / 4 := by linarith
      split <;> split
      · rw [mul_neg_one, abs_neg, abs_of_pos hpos]
      · rw [mul_neg_one, abs_neg, neg_div, abs_neg, abs_of_pos hpos]
      · rw [abs_of_pos hpos]
      · rw [neg_div, abs_neg, abs_of_pos hpos]
    rw [e0, e1]
    constructor
    · norm_num
      linarith
    · norm_num
      linarith

/-- Witness for C31 at the 44-pin entry, double-sided with vias inside. -/
theorem C31_drill_inside_pad_witness :
    APW9325 ∈ component_specs ∧ (⟨1, 0, ""⟩ : footprint_options_t).double_sided ≠ 0 ∧
      ∀ p ∈ calculate_pin_positions APW9325 ⟨1, 0, ""⟩,
        p.drill.diameter = 0.3 ∧
          |p.drill.offset.x| + 0.15 ≤ p.size.x / 2 ∧
          |p.drill.offset.y| + 0.15 ≤ p.size.y / 2 :=
  ⟨by simp [component_specs], by decide,
    C31_drill_inside_pad APW9325 (by simp [component_specs]) ⟨1, 0, ""⟩ (by decide)⟩

end PLCC
